import Mathlib

/-!
# Health tracker: the drain-and-persist pipeline

A shallow embedding of `discipline/methods.go`, `discipline/models.go` and of the
`Sink` handler of `api/handlers.go`.

The external collaborators (Redis, SQLite behind `database/sql`, the local file
system, S3) are explicit state.  Every call that leaves the process consumes one
entry of a fault schedule (`true` = the call fails); an exhausted schedule means
that no further call fails.  Quantifying over schedules covers every pattern of
external failure.
-/

namespace HealthTracker

/-! ## Errors and fault schedules -/

/-- Go `error` values, as far as the program tells them apart. -/
inductive Error where
  /-- The error `redis.Nil`: the list is empty or the key is missing. -/
  | redisNil
  /-- An error of `json.Unmarshal`. -/
  | unmarshal
  /-- The error `fs.ErrNotExist`. -/
  | notExist
  /-- The error `fs.ErrExist`. -/
  | exist
  /-- The S3 error whose text contains `NoSuchKey`. -/
  | noSuchKey
  /-- The error `sql.ErrTxDone`. -/
  | txDone
  /-- Any other failure reported by the named call into a collaborator. -/
  | failure (call : String)
  /-- An error made by `fmt.Errorf` from a message and a cause (`%w` or `%v`). -/
  | wrap (msg : String) (cause : Error)
deriving DecidableEq, Repr

/-- Takes the outcome of the next external call off a fault schedule. -/
def nextFault : List Bool → Bool × List Bool
  | [] => (false, [])
  | b :: bs => (b, bs)

/-- No fault is scheduled among the next `n` calls. -/
def clean : Nat → List Bool → Bool
  | 0, _ => true
  | _ + 1, [] => true
  | n + 1, b :: bs => !b && clean n bs

/-! ## Record model (`discipline/models.go`) -/

/-- The struct `Trigger`. -/
structure Trigger where
  Id : String
  Timestamp : String
  Type_ : String
  Intensity : Int
  Compulsion : Bool
  Notes : String
deriving DecidableEq, Repr

/-- The struct `Action`. -/
structure Action where
  Id : String
  Timestamp : String
  Type_ : String
  Relief : Bool
  Duration : Int
  Notes : String
deriving DecidableEq, Repr

/-- The struct `Overall`. -/
structure Overall where
  Id : String
  Timestamp : String
  CleanStreak : Int
  GymSession : Bool
  CodingHours : Int
  ReadingHours : Int
  MoodScore : Int
deriving DecidableEq, Repr

/-- The dynamic value `any(record)` that the type switches of `InsertRecords` inspect. -/
inductive AnyRecord where
  | overall (v : Overall)
  | trigger (v : Trigger)
  | action (v : Action)
deriving DecidableEq, Repr

/-- A string stored in a Redis list, abstracted by what `json.Unmarshal` makes of it
for each of the three target structs (`none` = `Unmarshal` returns an error). -/
structure Payload where
  asOverall : Option Overall
  asTrigger : Option Trigger
  asAction : Option Action
deriving DecidableEq, Repr

/-- The type set `Overall | Action | Trigger` of the generic functions. -/
class SinkRecord (T : Type) where
  /-- the conversion `any(record)`. -/
  toAny : T → AnyRecord
  /-- the call `json.Unmarshal([]byte(val), &res)` with `res` of type `T`. -/
  unmarshal : Payload → Option T

instance : SinkRecord Overall := ⟨AnyRecord.overall, Payload.asOverall⟩
instance : SinkRecord Trigger := ⟨AnyRecord.trigger, Payload.asTrigger⟩
instance : SinkRecord Action := ⟨AnyRecord.action, Payload.asAction⟩

/-! ## The queue (`Queue`, Redis lists) -/

/-- The Redis server behind `Queue.Client`: the three lists the program uses, each in
pop order (`LPUSH` adds at the head, `LPOP` removes the head), and the fault schedule
of the transport. -/
structure Queue where
  overall : List Payload
  triggers : List Payload
  actions : List Payload
  faults : List Bool
deriving DecidableEq, Repr

/-- The list stored under a key; a key that is not one of the three has no list. -/
def Queue.list (q : Queue) (name : String) : List Payload :=
  if name = "health-overall" then q.overall
  else if name = "health-triggers" then q.triggers
  else if name = "health-actions" then q.actions
  else []

/-- Replaces the list stored under a key. -/
def Queue.setList (q : Queue) (name : String) (l : List Payload) : Queue :=
  if name = "health-overall" then { q with overall := l }
  else if name = "health-triggers" then { q with triggers := l }
  else if name = "health-actions" then { q with actions := l }
  else q

/-- The call `q.Client.LPop(q.Ctx, name).Result()`. -/
def LPop (q : Queue) (name : String) : Except Error Payload × Queue :=
  match nextFault q.faults with
  | (true, fs) => (.error (.failure "LPOP"), { q with faults := fs })
  | (false, fs) =>
    match q.list name with
    | [] => (.error .redisNil, { q with faults := fs })
    | val :: rest => (.ok val, ({ q with faults := fs }).setList name rest)

/-- The function `SinkType`: pops one item, then deserializes it. -/
def SinkType {T : Type} [SinkRecord T] (q : Queue) (name : String) : Except Error T × Queue :=
  match LPop q name with
  | (.error err, q1) => (.error (.wrap "error while unmarshalling" err), q1)
  | (.ok val, q1) =>
    match (SinkRecord.unmarshal val : Option T) with
    | none => (.error .unmarshal, q1)
    | some res => (.ok res, q1)

/-- The `for` loop of `GetSink`, with a bound on the number of iterations; `none` means
that the bound was reached before the loop left through `break`. -/
def GetSinkLoop {T : Type} [SinkRecord T] (name : String) :
    Nat → Queue → List T → Option (List T × Queue)
  | 0, _, _ => none
  | fuel + 1, q, arr =>
    match (SinkType q name : Except Error T × Queue) with
    | (.error _, q1) => some (arr, q1)
    | (.ok res, q1) => GetSinkLoop name fuel q1 (arr ++ [res])

/-- The function `GetSink`.  Each iteration that does not leave the loop removes one
item, so one iteration more than the list has items is enough (`GetSinkLoop_fuel`). -/
def GetSink {T : Type} [SinkRecord T] (q : Queue) (name : String) : List T × Queue :=
  (GetSinkLoop name ((q.list name).length + 1) q []).getD ([], q)

/-! ## The relational store (SQLite behind `database/sql`) -/

/-- A value bound to a statement parameter. -/
inductive SqlValue where
  | text (s : String)
  | int (n : Int)
  | bool (b : Bool)
deriving DecidableEq, Repr

/-- A stored row: the column names of the insert statement with the values bound to them. -/
abbrev Row := List (String × SqlValue)

/-- The content of the store: for each of the three tables of the program its rows in
insertion order, or `none` when the table does not exist. -/
structure Tables where
  trigger : Option (List Row)
  action : Option (List Row)
  overall : Option (List Row)
deriving DecidableEq, Repr

/-- The table of a given name. -/
def Tables.get (t : Tables) (name : String) : Option (List Row) :=
  if name = "trigger" then t.trigger
  else if name = "action" then t.action
  else if name = "overall" then t.overall
  else none

/-- Replaces the table of a given name. -/
def Tables.set (t : Tables) (name : String) (rows : Option (List Row)) : Tables :=
  if name = "trigger" then { t with trigger := rows }
  else if name = "action" then { t with action := rows }
  else if name = "overall" then { t with overall := rows }
  else t

/-- The rows of a table, none for a table that does not exist. -/
def Tables.rows (t : Tables) (name : String) : List Row :=
  (t.get name).getD []

/-- A positional insert statement `INSERT INTO table (columns) VALUES (?, ..., ?)`. -/
structure Stmt where
  table : String
  columns : List String
deriving DecidableEq, Repr

/-- One `CREATE TABLE` statement of the script `tables.sql`. -/
structure CreateStmt where
  table : String
  ifNotExists : Bool
deriving DecidableEq, Repr

/-- The calls that reach the SQLite driver. -/
inductive DbOp where
  | begin
  | prepare (query : Stmt)
  | exec (query : Stmt) (args : List SqlValue)
  | commit
  | rollback
  | tableCount (tableName : String)
  | create (stmt : CreateStmt)
  | vacuumInto (filePath : String)
deriving DecidableEq, Repr

/-- The handle `*sql.DB` with the database it is connected to: the committed content,
the fault schedule of the driver and the trace of the driver calls made so far. -/
structure SqlDB where
  tables : Tables
  faults : List Bool
  trace : List DbOp
deriving DecidableEq, Repr

/-- The struct `Database`.  Its `Ctx` and `Cancel` carry the deadline of the cycle; a
call cut short by the deadline is a failed driver call. -/
structure Database where
  Db : SqlDB
deriving DecidableEq, Repr

/-- One call into the driver: records it and takes its outcome off the schedule. -/
def SqlDB.call (db : SqlDB) (op : DbOp) : Bool × SqlDB :=
  ((nextFault db.faults).1, { db with faults := (nextFault db.faults).2, trace := db.trace ++ [op] })

/-- The handle `*sql.Tx`: the uncommitted content seen inside the transaction and the
`done` flag of `database/sql`. -/
structure Tx where
  work : Tables
  done : Bool
deriving DecidableEq, Repr

/-- The call `db.Begin()`. -/
def SqlDB.Begin (db : SqlDB) : Except Error Tx × SqlDB :=
  match db.call .begin with
  | (true, db1) => (.error (.failure "BEGIN"), db1)
  | (false, db1) => (.ok { work := db1.tables, done := false }, db1)

/-- The call `tx.Prepare(query)`: SQLite compiles the statement and rejects one that
names a missing table. -/
def Tx.Prepare (tx : Tx) (db : SqlDB) (query : Stmt) : Except Error Stmt × SqlDB :=
  match db.call (.prepare query) with
  | (true, db1) => (.error (.failure "PREPARE"), db1)
  | (false, db1) =>
    match tx.work.get query.table with
    | none => (.error (.failure "no such table"), db1)
    | some _ => (.ok query, db1)

/-- The call `stmt.Exec(args...)` of a prepared insert statement inside a transaction:
the arguments are bound to the columns by position and the row is added to the
uncommitted content. -/
def Stmt.Exec (stmt : Stmt) (tx : Tx) (db : SqlDB) (args : List SqlValue) :
    Option Error × Tx × SqlDB :=
  if args.length ≠ stmt.columns.length then
    (some (.failure "wrong number of arguments"), tx, db)
  else
    match db.call (.exec stmt args) with
    | (true, db1) => (some (.failure "EXEC"), tx, db1)
    | (false, db1) =>
      match tx.work.get stmt.table with
      | none => (some (.failure "no such table"), tx, db1)
      | some rows =>
        (none, { tx with work := tx.work.set stmt.table (some (rows ++ [stmt.columns.zip args])) }, db1)

/-- The call `tx.Commit()`.  `database/sql` marks the transaction done whatever the
driver answers; the SQLite driver rolls back when `COMMIT` fails. -/
def Tx.Commit (tx : Tx) (db : SqlDB) : Option Error × Tx × SqlDB :=
  if tx.done then (some .txDone, tx, db)
  else
    match db.call .commit with
    | (true, db1) => (some (.failure "COMMIT"), { tx with done := true }, db1)
    | (false, db1) => (none, { tx with done := true }, { db1 with tables := tx.work })

/-- The call `tx.Rollback()`, whose result the program ignores: nothing happens on a
transaction that is done, otherwise the uncommitted content is dropped. -/
def Tx.Rollback (tx : Tx) (db : SqlDB) : SqlDB :=
  if tx.done then db else (db.call .rollback).2

/-! ## Batch insertion -/

/-- The first type switch of `InsertRecords`: the statement for the kind of `records[0]`. -/
def insertQuery : AnyRecord → Stmt
  | .overall _ =>
    ⟨"overall", ["id", "timestamp", "clean_streak", "gym_session", "coding_hours",
      "reading_hours", "mood_score"]⟩
  | .trigger _ => ⟨"trigger", ["id", "timestamp", "type", "intensity", "compulsion", "notes"]⟩
  | .action _ => ⟨"action", ["id", "timestamp", "type", "relief", "duration", "notes"]⟩

/-- The second type switch of `InsertRecords`: the arguments passed to `stmt.Exec`. -/
def execArgs : AnyRecord → List SqlValue
  | .overall v =>
    [.text v.Id, .text v.Timestamp, .int v.CleanStreak, .bool v.GymSession,
      .int v.CodingHours, .int v.ReadingHours, .int v.MoodScore]
  | .trigger v =>
    [.text v.Id, .text v.Timestamp, .text v.Type_, .int v.Intensity, .bool v.Compulsion,
      .text v.Notes]
  | .action v =>
    [.text v.Id, .text v.Timestamp, .text v.Type_, .bool v.Relief, .int v.Duration,
      .text v.Notes]

/-- The loop `for _, record := range records` of `InsertRecords`; it stops at the first
`Exec` that fails. -/
def insertLoop {T : Type} [SinkRecord T] (stmt : Stmt) :
    List T → Tx → SqlDB → Option Error × Tx × SqlDB
  | [], tx, db => (none, tx, db)
  | record :: rest, tx, db =>
    match stmt.Exec tx db (execArgs (SinkRecord.toAny record)) with
    | (some err, tx1, db1) => (some (.wrap "failed to insert record" err), tx1, db1)
    | (none, tx1, db1) => insertLoop stmt rest tx1 db1

/-- The function `InsertRecords`.  The deferred `tx.Rollback()` runs on every path that
leaves the function after `Begin` succeeded. -/
def InsertRecords {T : Type} [SinkRecord T] (db : SqlDB) (records : List T) :
    Option Error × SqlDB :=
  match records with
  | [] => (none, db)
  | first :: _ =>
    match db.Begin with
    | (.error err, db1) => (some (.wrap "failed to begin transaction" err), db1)
    | (.ok tx, db1) =>
      match tx.Prepare db1 (insertQuery (SinkRecord.toAny first)) with
      | (.error err, db2) => (some (.wrap "failed to prepare statement" err), tx.Rollback db2)
      | (.ok stmt, db2) =>
        match insertLoop stmt records tx db2 with
        | (some err, tx3, db3) => (some err, tx3.Rollback db3)
        | (none, tx3, db3) =>
          match tx3.Commit db3 with
          | (some err, tx4, db4) =>
            (some (.wrap "failed to commit transaction" err), tx4.Rollback db4)
          | (none, tx4, db4) => (none, tx4.Rollback db4)

/-- The function `ProcessAndStore`: drain then insert, for `Overall`, `Trigger`, `Action`
in this order. -/
def ProcessAndStore (db : SqlDB) (q : Queue) : Option Error × SqlDB × Queue :=
  match (GetSink q "health-overall" : List Overall × Queue) with
  | (overalls, q1) =>
    match InsertRecords db overalls with
    | (some err, db1) => (some (.wrap "failed to insert overall records" err), db1, q1)
    | (none, db1) =>
      match (GetSink q1 "health-triggers" : List Trigger × Queue) with
      | (triggers, q2) =>
        match InsertRecords db1 triggers with
        | (some err, db2) => (some (.wrap "failed to insert trigger records" err), db2, q2)
        | (none, db2) =>
          match (GetSink q2 "health-actions" : List Action × Queue) with
          | (actions, q3) =>
            match InsertRecords db2 actions with
            | (some err, db3) => (some (.wrap "failed to insert action records" err), db3, q3)
            | (none, db3) => (none, db3, q3)

/-! ## Schema bootstrap -/

/-- The function `TableExists`: counts the tables of that name in `sqlite_master`. -/
def TableExists (db : SqlDB) (tableName : String) : (Bool × Option Error) × SqlDB :=
  match db.call (.tableCount tableName) with
  | (true, db1) =>
    ((false, some (.wrap "error checking table existence" (.failure "QUERY"))), db1)
  | (false, db1) => (((db1.tables.get tableName).isSome, none), db1)

/-- The loop of `checkExistence` over the table names. -/
def checkExistenceLoop : List String → SqlDB → Bool × SqlDB
  | [], db => (true, db)
  | name :: rest, db =>
    match TableExists db name with
    | ((pres, _), db1) => if !pres then (false, db1) else checkExistenceLoop rest db1

/-- The method `checkExistence`. -/
def Database.checkExistence (db : Database) : Bool × Database :=
  ((checkExistenceLoop ["trigger", "action", "overall"] db.Db).1,
    ⟨(checkExistenceLoop ["trigger", "action", "overall"] db.Db).2⟩)

/-! ## Files, object storage and the process environment -/

/-- The content of a file that holds a database. -/
inductive FileData where
  /-- a file of zero bytes, which SQLite opens as a database without tables. -/
  | empty
  /-- a database file with the given content. -/
  | image (t : Tables)
deriving DecidableEq, Repr

/-- The files the program touches; `none` = the file does not exist.  The script
`tables.sql` is not part of the sources: its content, a sequence of `CREATE TABLE`
statements, is an input. -/
structure FileSystem where
  /-- the file `/tmp/health.sqlite`. -/
  health : Option FileData
  /-- the file `/tmp/out.sqlite`. -/
  out : Option FileData
  /-- the file `./tmp/health.sqlite`. -/
  localHealth : Option FileData
  /-- the file `tables.sql`. -/
  tablesSql : Option (List CreateStmt)
deriving DecidableEq, Repr

/-- The database file at a path. -/
def FileSystem.file (fs : FileSystem) (path : String) : Option FileData :=
  if path = "/tmp/health.sqlite" then fs.health
  else if path = "/tmp/out.sqlite" then fs.out
  else if path = "./tmp/health.sqlite" then fs.localHealth
  else none

/-- Creates, overwrites or removes (`none`) the database file at a path. -/
def FileSystem.write (fs : FileSystem) (path : String) (d : Option FileData) : FileSystem :=
  if path = "/tmp/health.sqlite" then { fs with health := d }
  else if path = "/tmp/out.sqlite" then { fs with out := d }
  else if path = "./tmp/health.sqlite" then { fs with localHealth := d }
  else fs

/-- Everything outside the process that a cycle reads or writes, the database
connection apart: the files, the object `db/health.sqlite` of the bucket
`health-tracking-utility`, the Redis server, and the fault schedule of the calls to
the operating system, to S3 and to the configuration loaders. -/
structure World where
  fs : FileSystem
  s3 : Option FileData
  redis : Queue
  faults : List Bool
deriving DecidableEq, Repr

/-- One call to the operating system, S3 or a configuration loader: takes its outcome
off the schedule. -/
def World.call (w : World) : Bool × World :=
  ((nextFault w.faults).1, { w with faults := (nextFault w.faults).2 })

/-- The call `os.Remove(path)`. -/
def osRemove (path : String) (w : World) : Option Error × World :=
  match w.call with
  | (true, w1) => (some (.failure "remove"), w1)
  | (false, w1) =>
    match w1.fs.file path with
    | none => (some .notExist, w1)
    | some _ => (none, { w1 with fs := w1.fs.write path none })

/-- The call `os.Create(path)`: creates the file or truncates it. -/
def osCreate (path : String) (w : World) : Option Error × World :=
  match w.call with
  | (true, w1) => (some (.failure "create"), w1)
  | (false, w1) => (none, { w1 with fs := w1.fs.write path (some .empty) })

/-- The error result of `os.Stat(path)`. -/
def osStat (path : String) (w : World) : Option Error × World :=
  match w.call with
  | (true, w1) => (some (.failure "stat"), w1)
  | (false, w1) =>
    match w1.fs.file path with
    | none => (some .notExist, w1)
    | some _ => (none, w1)

/-- The function `os.IsExist`: reports whether the error says that a file already
exists; it is false for `nil`. -/
def IsExist : Option Error → Bool
  | some .exist => true
  | _ => false

/-- The call `sql.Open("sqlite3", path)` with the fault schedule the driver will follow
on this connection.  SQLite creates a missing file.  From here on the content of the
database is carried by the handle; the program does not read the file again during the
cycle. -/
def sqlOpen (path : String) (dbFaults : List Bool) (w : World) : Database × World :=
  match w.fs.file path with
  | some (.image t) => (⟨⟨t, dbFaults, []⟩⟩, w)
  | some .empty => (⟨⟨⟨none, none, none⟩, dbFaults, []⟩⟩, w)
  | none => (⟨⟨⟨none, none, none⟩, dbFaults, []⟩⟩, { w with fs := w.fs.write path (some .empty) })

/-- The function `ImportSqlite`: downloads the last snapshot into `/tmp/health.sqlite`;
a missing object leaves an empty file and is not an error. -/
def ImportSqlite (w : World) : Option Error × World :=
  match w.call with
  | (true, w1) => (some (.failure "LoadDefaultConfig"), w1)
  | (false, w1) =>
    match osCreate "/tmp/health.sqlite" w1 with
    | (some err, w2) => (some err, w2)
    | (none, w2) =>
      match w2.call with
      | (true, w3) => (some (.failure "GetObject"), w3)
      | (false, w3) =>
        match w3.s3 with
        | none =>
          match osCreate "/tmp/health.sqlite" w3 with
          | (some err, w4) => (some err, w4)
          | (none, w4) => (none, w4)
        | some body =>
          match w3.call with
          | (true, w4) => (some (.failure "Copy"), w4)
          | (false, w4) => (none, { w4 with fs := w4.fs.write "/tmp/health.sqlite" (some body) })

/-- The function `ExportSqlite`: uploads `/tmp/out.sqlite`, replacing the object. -/
def ExportSqlite (w : World) : Option Error × World :=
  match w.call with
  | (true, w1) => (some (.failure "LoadDefaultConfig"), w1)
  | (false, w1) =>
    match w1.call with
    | (true, w2) => (some (.failure "open"), w2)
    | (false, w2) =>
      match w2.fs.file "/tmp/out.sqlite" with
      | none => (some .notExist, w2)
      | some body =>
        match w2.call with
        | (true, w3) => (some (.failure "PutObject"), w3)
        | (false, w3) => (none, { w3 with s3 := some body })

/-- The function `InitDatabase`. -/
def InitDatabase (isLocal : Bool) (dbFaults : List Bool) (w : World) :
    Except Error Database × World :=
  match osRemove "/tmp/health.sqlite" w with
  | (_, w1) =>
    match osRemove "/tmp/out.sqlite" w1 with
    | (_, w2) =>
      if isLocal then
        match sqlOpen "./tmp/health.sqlite" dbFaults w2 with
        | (db, w3) => (.ok db, w3)
      else
        match ImportSqlite w2 with
        | (some err, w3) => (.error err, w3)
        | (none, w3) =>
          match sqlOpen "/tmp/health.sqlite" dbFaults w3 with
          | (db, w4) => (.ok db, w4)

/-- The function `Init`: loads `.env`, then pings the Redis server. -/
def Init (w : World) : Except Error Queue × World :=
  match w.call with
  | (true, w1) => (.error (.failure "godotenv.Load"), w1)
  | (false, w1) =>
    match nextFault w1.redis.faults with
    | (true, fs) =>
      (.error (.wrap "failed to connect to Redis" (.failure "PING")),
        { w1 with redis := { w1.redis with faults := fs } })
    | (false, fs) =>
      (.ok { w1.redis with faults := fs }, { w1 with redis := { w1.redis with faults := fs } })

/-- How a function that may call `log.Fatal` ends: it returns its error result, or the
process exits inside it. -/
inductive Outcome where
  | returned (err : Option Error)
  | exited
deriving DecidableEq, Repr

/-- The call `db.Db.Exec(contents)` on a script: the driver runs the statements one
after the other, outside any transaction, and stops at the first that fails. -/
def execScript : List CreateStmt → SqlDB → Option Error × SqlDB
  | [], db => (none, db)
  | stmt :: rest, db =>
    match db.call (.create stmt) with
    | (true, db1) => (some (.failure "EXEC"), db1)
    | (false, db1) =>
      match db1.tables.get stmt.table with
      | some _ =>
        if stmt.ifNotExists then execScript rest db1
        else (some (.failure "table already exists"), db1)
      | none => execScript rest { db1 with tables := db1.tables.set stmt.table (some []) }

/-- The function `CreateTables`. -/
def CreateTables (db : Database) (w : World) : Outcome × Database × World :=
  match w.call with
  | (true, w1) => (.exited, db, w1)
  | (false, w1) =>
    match w1.fs.tablesSql with
    | none => (.exited, db, w1)
    | some contents =>
      match w1.call with
      | (true, w2) => (.returned (some (.failure "ReadAll")), db, w2)
      | (false, w2) =>
        match execScript contents db.Db with
        | (some err, db1) => (.returned (some err), ⟨db1⟩, w2)
        | (none, db1) => (.returned none, ⟨db1⟩, w2)

/-- The statement `VACUUM INTO ?`: writes a copy of the database to a path at which
there is no file or an empty one, and fails on any other file. -/
def vacuumInto (db : SqlDB) (filePath : String) (w : World) : Option Error × SqlDB × World :=
  match db.call (.vacuumInto filePath) with
  | (true, db1) => (some (.failure "VACUUM"), db1, w)
  | (false, db1) =>
    match w.fs.file filePath with
    | some (.image _) => (some (.failure "output file already exists"), db1, w)
    | _ => (none, db1, { w with fs := w.fs.write filePath (some (.image db1.tables)) })

/-- The function `saveDBToFile`. -/
def saveDBToFile (db : SqlDB) (filePath : String) (w : World) : Option Error × SqlDB × World :=
  match osStat filePath w with
  | (err, w1) =>
    if IsExist err then
      match osRemove "/tmp/out.sqlite" w1 with
      | (some err1, w2) => (some err1, db, w2)
      | (none, w2) =>
        match osRemove "/tmp/health.sqlite" w2 with
        | (some err2, w3) => (some err2, db, w3)
        | (none, w3) => vacuumInto db filePath w3
    else vacuumInto db filePath w1

/-- What a cycle leaves behind: how `RefreshSink` ended, the connection it opened (if
it got that far) and the world. -/
structure Cycle where
  outcome : Outcome
  db : Option Database
  world : World
deriving DecidableEq, Repr

/-- The part of `RefreshSink` that both branches share textually: `ProcessAndStore`,
`saveDBToFile`, `ExportSqlite`. -/
def storeSaveExport (db : Database) (q : Queue) (w : World) : Cycle :=
  match ProcessAndStore db.Db q with
  | (some err, db1, q1) => ⟨.returned (some err), some ⟨db1⟩, { w with redis := q1 }⟩
  | (none, db1, q1) =>
    match saveDBToFile db1 "/tmp/out.sqlite" { w with redis := q1 } with
    | (some err, db2, w1) => ⟨.returned (some err), some ⟨db2⟩, w1⟩
    | (none, db2, w1) =>
      match ExportSqlite w1 with
      | (some err, w2) => ⟨.returned (some err), some ⟨db2⟩, w2⟩
      | (none, w2) => ⟨.returned none, some ⟨db2⟩, w2⟩

/-- The function `RefreshSink`, one cycle.  `dbFaults` is the fault schedule of the
database connection that the cycle opens. -/
def RefreshSink (dbFaults : List Bool) (w : World) : Cycle :=
  match InitDatabase false dbFaults w with
  | (.error err, w1) => ⟨.returned (some err), none, w1⟩
  | (.ok db, w1) =>
    match Init w1 with
    | (.error err, w2) => ⟨.returned (some err), some db, w2⟩
    | (.ok q, w2) =>
      match db.checkExistence with
      | (true, db1) => storeSaveExport db1 q w2
      | (false, db1) =>
        match CreateTables db1 w2 with
        | (.exited, db2, w3) => ⟨.exited, some db2, w3⟩
        | (.returned (some err), db2, w3) => ⟨.returned (some err), some db2, w3⟩
        | (.returned none, db2, w3) => storeSaveExport db2 q w3

/-! ## The request handler (`api/handlers.go`) -/

/-- A response written with `c.JSON(status, body)`. -/
structure Response where
  status : Nat
  body : String
deriving DecidableEq, Repr

/-- What handling one `GET /api/v1/sink` request produces: the response (none when the
process exited before answering), the errors written to the log by the handler, and the
cycle that ran. -/
structure Handled where
  response : Option Response
  logged : List Error
  cycle : Cycle
deriving DecidableEq, Repr

/-- The handler `Sink`. -/
def Sink (dbFaults : List Bool) (w : World) : Handled :=
  match RefreshSink dbFaults w with
  | ⟨.exited, db, w1⟩ => ⟨none, [], ⟨.exited, db, w1⟩⟩
  | ⟨.returned (some err), db, w1⟩ =>
    ⟨some ⟨200, "Refreshed database"⟩, [err], ⟨.returned (some err), db, w1⟩⟩
  | ⟨.returned none, db, w1⟩ =>
    ⟨some ⟨200, "Refreshed database"⟩, [], ⟨.returned none, db, w1⟩⟩

/-! ## Vocabulary of the statements -/

/-- The row a record becomes: the columns of its statement with its fields bound by
position. -/
def rowOf (r : AnyRecord) : Row := (insertQuery r).columns.zip (execArgs r)

/-- The content of the store after rows were appended to a table (no change when the
table does not exist). -/
def Tables.append (t : Tables) (name : String) (rows : List Row) : Tables :=
  match t.get name with
  | some old => t.set name (some (old ++ rows))
  | none => t

/-- The three tables are present. -/
def Tables.complete (t : Tables) : Bool :=
  t.trigger.isSome && t.action.isSome && t.overall.isSome

/-- The driver calls of the schema bootstrap: existence queries and `CREATE TABLE`. -/
def DbOp.isSchemaOp : DbOp → Bool
  | .tableCount _ => true
  | .create _ => true
  | _ => false

/-- Every queued item deserializes into the struct of its queue. -/
def Queue.wellFormed (q : Queue) : Bool :=
  q.overall.all (fun p => p.asOverall.isSome) &&
  q.triggers.all (fun p => p.asTrigger.isSome) &&
  q.actions.all (fun p => p.asAction.isSome)

/-- The three lists are empty. -/
def Queue.drained (q : Queue) : Bool :=
  q.overall.isEmpty && q.triggers.isEmpty && q.actions.isEmpty

/-! ## Sample states -/

/-- A trigger event. -/
def sampleTrigger : Trigger := ⟨"id-1", "2024-01-01T00:00:00Z", "urge", 7, true, "test"⟩

/-- A second trigger event. -/
def sampleTrigger2 : Trigger := ⟨"id-2", "2024-01-02T00:00:00Z", "boredom", 3, false, ""⟩

/-- A queued string that is the JSON of `sampleTrigger`. -/
def goodItem : Payload := ⟨none, some sampleTrigger, none⟩

/-- A queued string that is the JSON of `sampleTrigger2`. -/
def goodItem2 : Payload := ⟨none, some sampleTrigger2, none⟩

/-- A queued string that is not JSON. -/
def badItem : Payload := ⟨none, none, none⟩

/-- A store with the three tables, all without rows, whose driver never fails. -/
def emptyStore : SqlDB := ⟨⟨some [], some [], some []⟩, [], []⟩

/-- A queue whose trigger list holds a well-formed item, a malformed one and another
well-formed one, in pop order. -/
def mixedQueue : Queue := ⟨[], [goodItem, badItem, goodItem2], [], []⟩

/-- An overall event. -/
def sampleOverall : Overall := ⟨"id-3", "2024-01-03T00:00:00Z", 12, true, 4, 1, 8⟩

/-- A queued string that is the JSON of `sampleOverall`. -/
def overallItem : Payload := ⟨some sampleOverall, none, none⟩

/-- A store with the three empty tables whose fifth driver call fails: the four calls of
a one-record batch succeed, the `Begin` of the next batch does not. -/
def failingStore : SqlDB := ⟨⟨some [], some [], some []⟩, [false, false, false, false, true], []⟩

/-- A queue with one overall item and one trigger item. -/
def twoKindQueue : Queue := ⟨[overallItem], [goodItem], [], []⟩

/-- A queue with one overall item whose first pop fails in the transport. -/
def transportFaultQueue : Queue := ⟨[overallItem], [], [], [true]⟩

/-- A world without files and without a remote snapshot in which the Redis server does
not answer the ping. -/
def redisDownWorld : World := ⟨⟨none, none, none, none⟩, none, ⟨[], [], [], [true]⟩, []⟩

/-- A world in which `/tmp/out.sqlite` holds an earlier snapshot (three empty tables). -/
def staleSnapshotWorld : World :=
  ⟨⟨none, some (.image ⟨some [], some [], some []⟩), none, none⟩, none, ⟨[], [], [], []⟩, []⟩

/-- A store, whose driver never fails, that holds one trigger row. -/
def oneRowStore : SqlDB :=
  ⟨⟨some [rowOf (.trigger sampleTrigger)], some [], some []⟩, [], []⟩

/-- The script `tables.sql` with one plain `CREATE TABLE` per table. -/
def plainScript : List CreateStmt := [⟨"trigger", false⟩, ⟨"action", false⟩, ⟨"overall", false⟩]

/-- A world without remote snapshot, with the table script, and with one overall item
and one trigger item queued. -/
def freshWorld : World := ⟨⟨none, none, none, some plainScript⟩, none, twoKindQueue, []⟩

/-- A world whose remote snapshot holds the three empty tables and whose trigger list
holds a malformed item followed by a well-formed one. -/
def stuckItemWorld : World :=
  ⟨⟨none, none, none, some plainScript⟩, some (.image ⟨some [], some [], some []⟩),
    ⟨[], [badItem, goodItem], [], []⟩, []⟩

/-- A second overall event. -/
def sampleOverall2 : Overall := ⟨"id-4", "2024-01-04T00:00:00Z", 13, false, 2, 0, 6⟩

/-- A queued string that is the JSON of `sampleOverall2`. -/
def overallItem2 : Payload := ⟨some sampleOverall2, none, none⟩

/-- A queue with two overall items and one trigger item whose second pop fails in the
transport. -/
def faultAfterOneQueue : Queue := ⟨[overallItem, overallItem2], [goodItem], [], [false, true]⟩

/-! ## Basic facts about the queue -/

theorem nextFault_of_clean (n : Nat) (fs : List Bool) (h : clean (n + 1) fs = true) :
    nextFault fs = (false, fs.drop 1) ∧ clean n (fs.drop 1) = true := by
  cases fs with
  | nil => cases n <;> simp [nextFault, clean]
  | cons b bs =>
    simp only [clean, Bool.and_eq_true, Bool.not_eq_true'] at h
    simp [nextFault, h.1, h.2]

theorem Queue.list_setList (q : Queue) (name : String) (l : List Payload)
    (h : q.list name ≠ []) : (q.setList name l).list name = l := by
  unfold Queue.list Queue.setList at *
  split_ifs at h ⊢ <;> simp_all

theorem Queue.list_setList_other (q : Queue) (name other : String) (l : List Payload)
    (h : other ≠ name) : (q.setList name l).list other = q.list other := by
  unfold Queue.list Queue.setList
  split_ifs <;> simp_all

theorem Queue.faults_setList (q : Queue) (name : String) (l : List Payload) :
    (q.setList name l).faults = q.faults := by
  unfold Queue.setList
  split_ifs <;> rfl

/-- A successful `SinkType` removes the head of the list and nothing else. -/
theorem SinkType_ok {T : Type} [SinkRecord T] (q : Queue) (name : String) (val : Payload)
    (rest : List Payload) (res : T) (hl : q.list name = val :: rest)
    (hf : (nextFault q.faults).1 = false) (hu : SinkRecord.unmarshal val = some res) :
    (SinkType q name : Except Error T × Queue) =
      (.ok res, ({ q with faults := (nextFault q.faults).2 }).setList name rest) := by
  have hl1 : Queue.list { q with faults := (nextFault q.faults).2 } name = val :: rest := hl
  cases hnf : nextFault q.faults with
  | mk b fs =>
    rw [hnf] at hf hl1
    simp only at hf hl1
    subst hf
    have hl2 : q.list name = val :: rest := hl
    simp only [SinkType, LPop, hnf, hl2, hu]

theorem nextFault_snd (fs : List Bool) : (nextFault fs).2 = fs.drop 1 := by
  cases fs <;> rfl

/-- The drain over a list that starts with well-formed items `ps` and whose next
`SinkType` call fails: the loop returns the values of `ps` and stops there. -/
theorem GetSinkLoop_spec {T : Type} [SinkRecord T] (name : String) :
    ∀ (ps : List Payload) (pre : List T) (rest : List Payload) (q : Queue) (arr : List T)
      (fuel : Nat),
      q.list name = ps ++ rest →
      ps.map SinkRecord.unmarshal = pre.map some →
      clean ps.length q.faults = true →
      (rest = [] ∨ (nextFault (q.faults.drop ps.length)).1 = true ∨
        ∃ bad tl, rest = bad :: tl ∧ (SinkRecord.unmarshal bad : Option T) = none) →
      ps.length < fuel →
      ∃ q1, GetSinkLoop name fuel q arr = some (arr ++ pre, q1) ∧
        q1.faults = q.faults.drop (ps.length + 1) ∧
        q1.list name = (if (nextFault (q.faults.drop ps.length)).1 = true then rest
          else rest.tail) ∧
        ∀ other, other ≠ name → q1.list other = q.list other := by
  intro ps
  induction ps with
  | nil =>
    intro pre rest q arr fuel hl hp _ hstop hfuel
    have hpre : pre = [] := by cases pre <;> simp_all
    subst hpre
    obtain ⟨f, rfl⟩ : ∃ f, fuel = f + 1 := ⟨fuel - 1, by omega⟩
    simp only [List.nil_append] at hl
    simp only [List.length_nil, List.drop_zero, Nat.zero_add, List.append_nil] at *
    have hnf : nextFault q.faults = ((nextFault q.faults).1, q.faults.drop 1) := by
      rw [← nextFault_snd]
    by_cases hb : (nextFault q.faults).1 = true
    · rw [hb] at hnf
      refine ⟨{ q with faults := q.faults.drop 1 }, ?_, rfl, ?_, fun _ _ => rfl⟩
      · simp [GetSinkLoop, SinkType, LPop, hnf]
      · simpa [hb] using hl
    · have hb1 : (nextFault q.faults).1 = false := by simpa using hb
      rw [hb1] at hnf
      rcases hstop with h | h | ⟨bad, tl, h, hbad⟩
      · subst h
        refine ⟨{ q with faults := q.faults.drop 1 }, ?_, rfl, ?_, fun _ _ => rfl⟩
        · simp [GetSinkLoop, SinkType, LPop, hnf, hl]
        · simpa [hb1] using hl
      · exact absurd h hb
      · subst h
        have hne : Queue.list { q with faults := q.faults.drop 1 } name ≠ [] := by
          show q.list name ≠ []
          rw [hl]; simp
        refine ⟨({ q with faults := q.faults.drop 1 }).setList name tl, ?_, ?_, ?_, ?_⟩
        · simp [GetSinkLoop, SinkType, LPop, hnf, hl, hbad]
        · rw [Queue.faults_setList]
        · simpa [hb1] using Queue.list_setList _ name tl hne
        · intro other ho
          rw [Queue.list_setList_other _ _ _ _ ho]; rfl
  | cons p ps ih =>
    intro pre rest q arr fuel hl hp hc hstop hfuel
    obtain ⟨f, rfl⟩ : ∃ f, fuel = f + 1 := ⟨fuel - 1, by simp at hfuel; omega⟩
    cases pre with
    | nil => simp at hp
    | cons v pre =>
      simp only [List.map_cons, List.cons.injEq] at hp
      obtain ⟨hnf, hc1⟩ := nextFault_of_clean ps.length q.faults (by simpa using hc)
      have hl1 : q.list name = p :: (ps ++ rest) := by simpa using hl
      have hst := SinkType_ok q name p (ps ++ rest) v hl1 (by rw [hnf]) hp.1
      have hne : Queue.list { q with faults := (nextFault q.faults).2 } name ≠ [] := by
        show q.list name ≠ []
        rw [hl1]; simp
      have hq1l := Queue.list_setList _ name (ps ++ rest) hne
      have hq1f : (({ q with faults := (nextFault q.faults).2 }).setList name
          (ps ++ rest)).faults = q.faults.drop 1 := by
        rw [Queue.faults_setList]; simp [hnf]
      obtain ⟨q2, h1, h2, h3, h4⟩ := ih pre rest _ (arr ++ [v]) f hq1l hp.2
        (by rw [hq1f]; exact hc1)
        (by rw [hq1f]; simpa [List.drop_drop, Nat.add_comm] using hstop)
        (by simp at hfuel; omega)
      refine ⟨q2, ?_, ?_, ?_, ?_⟩
      · simp only [GetSinkLoop, hst, h1]; simp
      · rw [h2, hq1f]; simp [List.drop_drop, Nat.add_comm, Nat.add_left_comm]
      · rw [h3, hq1f]; simp [List.drop_drop, Nat.add_comm]
      · intro other ho
        rw [h4 other ho, Queue.list_setList_other _ _ _ _ ho]; rfl

/-- A successful `SinkType` shortens the list by one item. -/
theorem SinkType_ok_length {T : Type} [SinkRecord T] (q : Queue) (name : String) (res : T)
    (q1 : Queue) (h : (SinkType q name : Except Error T × Queue) = (.ok res, q1)) :
    (q1.list name).length + 1 = (q.list name).length := by
  simp only [SinkType, LPop] at h
  rcases hnf : nextFault q.faults with ⟨b, fs⟩
  rw [hnf] at h
  cases b with
  | true => simp at h
  | false =>
    simp only at h
    cases hl : q.list name with
    | nil => rw [hl] at h; simp at h
    | cons val rest =>
      rw [hl] at h
      simp only at h
      cases hu : (SinkRecord.unmarshal val : Option T) with
      | none => rw [hu] at h; simp at h
      | some v =>
        rw [hu] at h
        simp only [Prod.mk.injEq] at h
        have hne : Queue.list { q with faults := fs } name ≠ [] := by
          show q.list name ≠ []
          rw [hl]; simp
        rw [← h.2, Queue.list_setList _ _ _ hne]
        simp

/-- More iterations than needed do not change what the loop returns. -/
theorem GetSinkLoop_mono {T : Type} [SinkRecord T] (name : String) :
    ∀ (n : Nat) (q : Queue) (arr : List T) (r : List T × Queue) (k : Nat),
      GetSinkLoop name n q arr = some r → GetSinkLoop name (n + k) q arr = some r := by
  intro n
  induction n with
  | zero => intro q arr r k h; simp [GetSinkLoop] at h
  | succ n ih =>
    intro q arr r k h
    rw [Nat.add_right_comm]
    simp only [GetSinkLoop] at h ⊢
    split at h
    · next e q1 heq => exact h
    · next res q1 heq => exact ih _ _ _ _ h

/-- The loop of `GetSink` leaves through `break` within one iteration more than the
list has items. -/
theorem GetSinkLoop_fuel {T : Type} [SinkRecord T] (name : String) :
    ∀ (fuel : Nat) (q : Queue) (arr : List T), (q.list name).length < fuel →
      ∃ r, GetSinkLoop name fuel q arr = some r := by
  intro fuel
  induction fuel with
  | zero => intro q arr h; omega
  | succ n ih =>
    intro q arr h
    simp only [GetSinkLoop]
    split
    · next e q1 heq => exact ⟨_, rfl⟩
    · next res q1 heq =>
      apply ih
      have := SinkType_ok_length q name res q1 heq
      omega

/-- The value of `GetSink` is the value the loop returns with any sufficient bound. -/
theorem GetSink_eq {T : Type} [SinkRecord T] (q : Queue) (name : String) (fuel : Nat)
    (h : (q.list name).length < fuel) :
    GetSinkLoop name fuel q ([] : List T) = some (GetSink q name) := by
  obtain ⟨r, hr⟩ := GetSinkLoop_fuel (T := T) name ((q.list name).length + 1) q [] (by omega)
  have hm := GetSinkLoop_mono name _ q [] r (fuel - ((q.list name).length + 1)) hr
  have : (q.list name).length + 1 + (fuel - ((q.list name).length + 1)) = fuel := by omega
  rw [this] at hm
  rw [hm, GetSink, hr]; rfl

/-! ## Basic facts about the store -/

theorem Tables.set_self (t : Tables) (name : String) (rows : List Row)
    (h : t.get name = some rows) : t.set name (some rows) = t := by
  cases t
  unfold Tables.get at h
  unfold Tables.set
  split_ifs at h ⊢ <;> simp_all

theorem Tables.get_set (t : Tables) (name : String) (x : Option (List Row))
    (h : (t.get name).isSome = true) : (t.set name x).get name = x := by
  unfold Tables.get at *
  unfold Tables.set
  split_ifs at h ⊢ <;> simp_all

theorem Tables.set_set (t : Tables) (name : String) (x y : Option (List Row)) :
    (t.set name x).set name y = t.set name y := by
  unfold Tables.set
  split_ifs <;> simp_all

theorem Tables.get_set_other (t : Tables) (name other : String) (x : Option (List Row))
    (h : other ≠ name) : (t.set name x).get other = t.get other := by
  unfold Tables.get Tables.set
  split_ifs <;> simp_all

theorem SqlDB.call_eq (db : SqlDB) (op : DbOp) :
    db.call op = ((nextFault db.faults).1, ⟨db.tables, db.faults.drop 1, db.trace ++ [op]⟩) := by
  simp [SqlDB.call, nextFault_snd]

theorem Tx.Rollback_tables (tx : Tx) (db : SqlDB) : (tx.Rollback db).tables = db.tables := by
  unfold Tx.Rollback
  split_ifs <;> simp [SqlDB.call_eq]

theorem Tx.Rollback_done (tx : Tx) (db : SqlDB) (h : tx.done = true) : tx.Rollback db = db := by
  simp [Tx.Rollback, h]

/-- What a successful `Exec` does. -/
theorem Stmt.Exec_ok (stmt : Stmt) (tx : Tx) (db : SqlDB) (args : List SqlValue)
    (h : (stmt.Exec tx db args).1 = none) :
    (nextFault db.faults).1 = false ∧
    ∃ rows, tx.work.get stmt.table = some rows ∧
      stmt.Exec tx db args =
        (none, ⟨tx.work.set stmt.table (some (rows ++ [stmt.columns.zip args])), tx.done⟩,
          ⟨db.tables, db.faults.drop 1, db.trace ++ [.exec stmt args]⟩) := by
  unfold Stmt.Exec at h ⊢
  rw [SqlDB.call_eq] at h ⊢
  by_cases hlen : args.length ≠ stmt.columns.length
  · simp [hlen] at h
  · simp only [hlen, if_false] at h ⊢
    cases hb : (nextFault db.faults).1 with
    | true => simp [hb] at h
    | false =>
      simp only [hb] at h ⊢
      cases hg : tx.work.get stmt.table with
      | none => simp [hg] at h
      | some rows => exact ⟨trivial, rows, rfl, rfl⟩

/-- An `Exec` never changes the committed content. -/
theorem Stmt.Exec_frame (stmt : Stmt) (tx : Tx) (db : SqlDB) (args : List SqlValue) :
    (stmt.Exec tx db args).2.2.tables = db.tables ∧ (stmt.Exec tx db args).2.1.done = tx.done := by
  unfold Stmt.Exec
  rw [SqlDB.call_eq]
  split_ifs
  · exact ⟨rfl, rfl⟩
  · cases (nextFault db.faults).1 with
    | true => exact ⟨rfl, rfl⟩
    | false =>
      simp only
      cases tx.work.get stmt.table <;> exact ⟨rfl, rfl⟩

/-- The insert loop never changes the committed content. -/
theorem insertLoop_frame {T : Type} [SinkRecord T] (stmt : Stmt) :
    ∀ (records : List T) (tx : Tx) (db : SqlDB),
      (insertLoop stmt records tx db).2.2.tables = db.tables ∧
      (insertLoop stmt records tx db).2.1.done = tx.done := by
  intro records
  induction records with
  | nil => intro tx db; exact ⟨rfl, rfl⟩
  | cons r rs ih =>
    intro tx db
    have hf := Stmt.Exec_frame stmt tx db (execArgs (SinkRecord.toAny r))
    simp only [insertLoop]
    split
    · next err tx1 db1 heq =>
      rw [heq] at hf
      exact hf
    · next tx1 db1 heq =>
      rw [heq] at hf
      simp only at hf
      rw [(ih tx1 db1).1, (ih tx1 db1).2]
      exact hf

/-- A complete pass of the insert loop: one `Exec` per record, in input order. -/
theorem insertLoop_ok {T : Type} [SinkRecord T] (stmt : Stmt) :
    ∀ (records : List T) (tx : Tx) (db : SqlDB) (rows : List Row),
      (insertLoop stmt records tx db).1 = none →
      tx.work.get stmt.table = some rows →
      clean records.length db.faults = true ∧
      insertLoop stmt records tx db =
        (none,
          ⟨tx.work.set stmt.table (some (rows ++ records.map
            (fun r => stmt.columns.zip (execArgs (SinkRecord.toAny r))))), tx.done⟩,
          ⟨db.tables, db.faults.drop records.length,
            db.trace ++ records.map (fun r => .exec stmt (execArgs (SinkRecord.toAny r)))⟩) := by
  intro records
  induction records with
  | nil =>
    intro tx db rows _ hg
    simp [insertLoop, clean, Tables.set_self _ _ _ hg]
  | cons r rs ih =>
    intro tx db rows h hg
    simp only [insertLoop] at h ⊢
    split at h
    · simp at h
    · next tx1 db1 heq =>
      obtain ⟨hb, rows1, hg1, he⟩ :=
        Stmt.Exec_ok stmt tx db (execArgs (SinkRecord.toAny r)) (by rw [heq])
      rw [hg] at hg1
      cases hg1
      rw [he] at heq
      simp only [Prod.mk.injEq] at heq
      obtain ⟨-, htx, hdb⟩ := heq
      subst htx hdb
      have hget : (tx.work.set stmt.table
          (some (rows ++ [stmt.columns.zip (execArgs (SinkRecord.toAny r))]))).get stmt.table =
          some (rows ++ [stmt.columns.zip (execArgs (SinkRecord.toAny r))]) :=
        Tables.get_set _ _ _ (by rw [hg]; rfl)
      obtain ⟨hc, hl⟩ := ih _ _ _ h hget
      rw [hl]
      refine ⟨?_, ?_⟩
      · cases hfs : db.faults with
        | nil => simp [clean]
        | cons b bs =>
          rw [hfs] at hb hc
          simp only [nextFault] at hb
          simp only [List.drop_one, List.tail_cons] at hc
          simp [clean, hb, hc]
      · simp [Tables.set_set, List.drop_drop, Nat.add_comm]

theorem clean_of_drop (fs : List Bool) (n : Nat) (h1 : (nextFault fs).1 = false)
    (h2 : clean n (fs.drop 1) = true) : clean (n + 1) fs = true := by
  cases fs with
  | nil => simp [clean]
  | cons b bs =>
    simp only [nextFault] at h1
    simp only [List.drop_one, List.tail_cons] at h2
    simp [clean, h1, h2]

theorem clean_snoc (n : Nat) : ∀ (fs : List Bool), clean n fs = true →
    (nextFault (fs.drop n)).1 = false → clean (n + 1) fs = true := by
  induction n with
  | zero =>
    intro fs _ h
    cases fs with
    | nil => simp [clean]
    | cons b bs => simp only [List.drop_zero, nextFault] at h; simp [clean, h]
  | succ n ih =>
    intro fs h1 h2
    cases fs with
    | nil => simp [clean]
    | cons b bs =>
      simp only [clean, Bool.and_eq_true, Bool.not_eq_true'] at h1 ⊢
      exact ⟨h1.1, ih bs h1.2 (by simpa using h2)⟩

/-- The two ways `InsertRecords` ends on a non-empty batch: every driver call succeeded
and the batch is committed as a whole, or an error is returned and the committed
content is what it was. -/
theorem InsertRecords_cases {T : Type} [SinkRecord T] (db : SqlDB) (first : T)
    (rest : List T) :
    (clean ((first :: rest).length + 3) db.faults = true ∧
      ∃ old, db.tables.get (insertQuery (SinkRecord.toAny first)).table = some old ∧
        InsertRecords db (first :: rest) =
          (none,
            ⟨db.tables.set (insertQuery (SinkRecord.toAny first)).table
                (some (old ++ (first :: rest).map (fun r =>
                  (insertQuery (SinkRecord.toAny first)).columns.zip
                    (execArgs (SinkRecord.toAny r))))),
              db.faults.drop ((first :: rest).length + 3),
              db.trace ++ [.begin, .prepare (insertQuery (SinkRecord.toAny first))] ++
                (first :: rest).map (fun r =>
                  .exec (insertQuery (SinkRecord.toAny first)) (execArgs (SinkRecord.toAny r))) ++
                [.commit]⟩)) ∨
    (∃ e, (InsertRecords db (first :: rest)).1 = some e ∧
      (InsertRecords db (first :: rest)).2.tables = db.tables) := by
  simp only [InsertRecords, SqlDB.Begin, SqlDB.call_eq]
  cases hb : (nextFault db.faults).1 with
  | true => exact Or.inr ⟨_, rfl, rfl⟩
  | false =>
    simp only [Tx.Prepare, SqlDB.call_eq]
    cases hp : (nextFault (db.faults.drop 1)).1 with
    | true => exact Or.inr ⟨_, rfl, by simp [Tx.Rollback_tables]⟩
    | false =>
      simp only
      cases hg : db.tables.get (insertQuery (SinkRecord.toAny first)).table with
      | none => exact Or.inr ⟨_, rfl, by simp [Tx.Rollback_tables]⟩
      | some old =>
        simp only
        rcases hloop : insertLoop (insertQuery (SinkRecord.toAny first)) (first :: rest)
          ⟨db.tables, false⟩ ⟨db.tables, List.drop 1 (List.drop 1 db.faults),
            db.trace ++ [DbOp.begin] ++ [DbOp.prepare (insertQuery (SinkRecord.toAny first))]⟩
          with ⟨e, tx3, db3⟩
        have hfr := insertLoop_frame (insertQuery (SinkRecord.toAny first)) (first :: rest)
          ⟨db.tables, false⟩ ⟨db.tables, List.drop 1 (List.drop 1 db.faults),
            db.trace ++ [DbOp.begin] ++ [DbOp.prepare (insertQuery (SinkRecord.toAny first))]⟩
        rw [hloop] at hfr
        simp only at hfr
        cases e with
        | some err => exact Or.inr ⟨_, rfl, by simp [Tx.Rollback_tables, hfr.1]⟩
        | none =>
          obtain ⟨hc, hl⟩ := insertLoop_ok (insertQuery (SinkRecord.toAny first)) (first :: rest)
            ⟨db.tables, false⟩ ⟨db.tables, List.drop 1 (List.drop 1 db.faults),
              db.trace ++ [DbOp.begin] ++ [DbOp.prepare (insertQuery (SinkRecord.toAny first))]⟩
            old (by rw [hloop]) hg
          rw [hloop] at hl
          simp only [Prod.mk.injEq] at hl
          obtain ⟨-, htx, hdb⟩ := hl
          subst htx hdb
          simp only [Tx.Commit, SqlDB.call_eq, Bool.false_eq_true, if_false]
          cases hcm : (nextFault (List.drop (first :: rest).length
              (List.drop 1 (List.drop 1 db.faults)))).1 with
          | true => exact Or.inr ⟨_, rfl, by simp [Tx.Rollback_tables]⟩
          | false =>
            left
            refine ⟨?_, old, rfl, ?_⟩
            · have h3 := clean_snoc _ _ hc hcm
              have h2 := clean_of_drop _ _ hp h3
              have h1 := clean_of_drop _ _ hb h2
              simpa [Nat.add_assoc] using h1
            · simp [Tx.Rollback, List.drop_drop, Nat.add_comm, Nat.add_left_comm, Nat.add_assoc]

/-! ## Consequences for `InsertRecords` and the drains -/

/-- The committed content after `InsertRecords`, for a record type whose records all
select the same statement. -/
theorem InsertRecords_tables {T : Type} [SinkRecord T] (stmt : Stmt)
    (hq : ∀ r : T, insertQuery (SinkRecord.toAny r) = stmt) (db : SqlDB) (records : List T) :
    ((InsertRecords db records).1 = none →
      (InsertRecords db records).2.tables =
        db.tables.append stmt.table (records.map (fun r => rowOf (SinkRecord.toAny r)))) ∧
    ((InsertRecords db records).1 ≠ none → (InsertRecords db records).2.tables = db.tables) := by
  cases records with
  | nil =>
    refine ⟨fun _ => ?_, fun h => absurd rfl h⟩
    simp only [InsertRecords, List.map_nil, Tables.append]
    cases hg : db.tables.get stmt.table with
    | none => rfl
    | some old => simp [Tables.set_self _ _ _ hg]
  | cons first rest =>
    rcases InsertRecords_cases db first rest with ⟨-, old, hg, he⟩ | ⟨e, h1, h2⟩
    · refine ⟨fun _ => ?_, fun h => absurd (by rw [he]) h⟩
      rw [he]
      rw [hq first] at hg
      simp only [Tables.append, hg, hq first, rowOf]
      congr 3
      apply List.map_congr_left
      intro r _
      rw [hq r]
    · exact ⟨fun h => (by rw [h1] at h; cases h), fun _ => h2⟩

/-- The insert loop completes when no `Exec` fails, the table exists and the argument
lists have the length of the column list. -/
theorem insertLoop_succeeds {T : Type} [SinkRecord T] (stmt : Stmt)
    (har : ∀ r : T, (execArgs (SinkRecord.toAny r)).length = stmt.columns.length) :
    ∀ (records : List T) (tx : Tx) (db : SqlDB),
      clean records.length db.faults = true → (tx.work.get stmt.table).isSome = true →
      (insertLoop stmt records tx db).1 = none := by
  intro records
  induction records with
  | nil => intro tx db _ _; rfl
  | cons r rs ih =>
    intro tx db hc hg
    obtain ⟨hnf, hc1⟩ := nextFault_of_clean rs.length db.faults (by simpa using hc)
    obtain ⟨rows, hrows⟩ := Option.isSome_iff_exists.mp hg
    have hb : (nextFault db.faults).1 = false := by rw [hnf]
    simp only [insertLoop, Stmt.Exec, SqlDB.call_eq, har r, ne_eq, not_true_eq_false, if_false,
      hb, hrows]
    apply ih
    · exact hc1
    · rw [Tables.get_set _ _ _ hg]; rfl

theorem clean_le (n : Nat) : ∀ (m : Nat) (fs : List Bool), m ≤ n → clean n fs = true →
    clean m fs = true := by
  induction n with
  | zero => intro m fs hm h; have : m = 0 := by omega
            subst this; exact h
  | succ n ih =>
    intro m fs hm h
    cases m with
    | zero => rfl
    | succ m =>
      cases fs with
      | nil => rfl
      | cons b bs =>
        simp only [clean, Bool.and_eq_true, Bool.not_eq_true'] at h ⊢
        exact ⟨h.1, ih m bs (by omega) h.2⟩

theorem clean_drop (k : Nat) : ∀ (n : Nat) (fs : List Bool), clean (n + k) fs = true →
    clean n (fs.drop k) = true := by
  induction k with
  | zero => intro n fs h; simpa using h
  | succ k ih =>
    intro n fs h
    cases fs with
    | nil => cases n <;> simp [clean]
    | cons b bs =>
      rw [← Nat.add_assoc] at h
      simp only [clean, Bool.and_eq_true, Bool.not_eq_true'] at h
      simpa using ih n bs h.2

/-- The function `InsertRecords` returns no error when no driver call fails and the
table exists. -/
theorem InsertRecords_succeeds {T : Type} [SinkRecord T] (stmt : Stmt)
    (hq : ∀ r : T, insertQuery (SinkRecord.toAny r) = stmt)
    (har : ∀ r : T, (execArgs (SinkRecord.toAny r)).length = stmt.columns.length)
    (db : SqlDB) (records : List T) (hc : ∀ n, clean n db.faults = true)
    (ht : (db.tables.get stmt.table).isSome = true) :
    (InsertRecords db records).1 = none ∧
    (∀ n, clean n (InsertRecords db records).2.faults = true) := by
  cases records with
  | nil => exact ⟨rfl, hc⟩
  | cons first rest =>
    have hnone : (InsertRecords db (first :: rest)).1 = none := by
      obtain ⟨hnf, hc1⟩ :=
        nextFault_of_clean ((first :: rest).length + 2) db.faults (hc _)
      obtain ⟨hnf2, hc2⟩ := nextFault_of_clean ((first :: rest).length + 1) _ hc1
      obtain ⟨old, hold⟩ := Option.isSome_iff_exists.mp ht
      have hb : (nextFault db.faults).1 = false := by rw [hnf]
      have hb2 : (nextFault (List.drop 1 db.faults)).1 = false := by rw [hnf2]
      have hloop := insertLoop_succeeds stmt har (first :: rest) ⟨db.tables, false⟩
        ⟨db.tables, List.drop 1 (List.drop 1 db.faults),
          db.trace ++ [DbOp.begin] ++ [DbOp.prepare stmt]⟩
        (clean_le _ _ _ (Nat.le_succ _) hc2) ht
      have hfr := insertLoop_frame stmt (first :: rest) ⟨db.tables, false⟩
        ⟨db.tables, List.drop 1 (List.drop 1 db.faults),
          db.trace ++ [DbOp.begin] ++ [DbOp.prepare stmt]⟩
      obtain ⟨hcl, hl⟩ := insertLoop_ok stmt (first :: rest) ⟨db.tables, false⟩
        ⟨db.tables, List.drop 1 (List.drop 1 db.faults),
          db.trace ++ [DbOp.begin] ++ [DbOp.prepare stmt]⟩ old hloop hold
      have hcm : (nextFault (List.drop (first :: rest).length
          (List.drop 1 (List.drop 1 db.faults)))).1 = false := by
        have := clean_drop ((first :: rest).length) 1 _ (by rw [Nat.add_comm]; exact hc2)
        exact congrArg Prod.fst (nextFault_of_clean 0 _ this).1
      simp only [InsertRecords, SqlDB.Begin, SqlDB.call_eq, hb, Tx.Prepare, hq first, hb2, hold,
        hl, Tx.Commit, Bool.false_eq_true, if_false, hcm]
    refine ⟨hnone, fun n => ?_⟩
    rcases InsertRecords_cases db first rest with ⟨-, old, -, he⟩ | ⟨e, h1, -⟩
    · rw [he]
      exact clean_drop _ n _ (hc _)
    · rw [h1] at hnone; cases hnone

theorem SinkType_frame {T : Type} [SinkRecord T] (q : Queue) (name other : String)
    (h : other ≠ name) :
    (SinkType q name : Except Error T × Queue).2.list other = q.list other := by
  simp only [SinkType, LPop]
  rcases nextFault q.faults with ⟨b, fs⟩
  cases b with
  | true => rfl
  | false =>
    simp only
    cases q.list name with
    | nil => rfl
    | cons val rest =>
      simp only
      cases (SinkRecord.unmarshal val : Option T) <;>
        simp only [Queue.list_setList_other _ _ _ _ h] <;> rfl

theorem GetSinkLoop_frame {T : Type} [SinkRecord T] (name other : String) (h : other ≠ name) :
    ∀ (fuel : Nat) (q : Queue) (arr : List T) (r : List T × Queue),
      GetSinkLoop name fuel q arr = some r → r.2.list other = q.list other := by
  intro fuel
  induction fuel with
  | zero => intro q arr r hr; simp [GetSinkLoop] at hr
  | succ n ih =>
    intro q arr r hr
    have hf := SinkType_frame (T := T) q name other h
    simp only [GetSinkLoop] at hr
    split at hr
    · next e q1 heq =>
      rw [heq] at hf
      simp only [Option.some.injEq] at hr
      rw [← hr]; exact hf
    · next res q1 heq =>
      rw [heq] at hf
      rw [ih _ _ _ hr]; exact hf

/-- A drain touches no list but its own. -/
theorem GetSink_frame {T : Type} [SinkRecord T] (q : Queue) (name other : String)
    (h : other ≠ name) : (GetSink q name : List T × Queue).2.list other = q.list other :=
  GetSinkLoop_frame name other h _ q [] _ (GetSink_eq q name _ (Nat.lt_succ_self _))

/-- The drain in full: where the loop stops, what it returns and what it leaves. -/
theorem GetSink_drain {T : Type} [SinkRecord T] (q : Queue) (name : String)
    (ps rest : List Payload) (pre : List T)
    (hlist : q.list name = ps ++ rest)
    (hpre : ps.map SinkRecord.unmarshal = pre.map some)
    (hclean : clean ps.length q.faults = true)
    (hstop : rest = [] ∨ (nextFault (q.faults.drop ps.length)).1 = true ∨
      ∃ bad tl, rest = bad :: tl ∧ (SinkRecord.unmarshal bad : Option T) = none) :
    (∀ fuel, (q.list name).length < fuel →
      GetSinkLoop name fuel q ([] : List T) = some (GetSink q name)) ∧
    (GetSink q name : List T × Queue).1 = pre ∧
    (GetSink q name : List T × Queue).2.list name =
      (if (nextFault (q.faults.drop ps.length)).1 = true then rest else rest.tail) ∧
    (∀ other, other ≠ name →
      (GetSink q name : List T × Queue).2.list other = q.list other) ∧
    (GetSink q name : List T × Queue).2.faults = q.faults.drop (ps.length + 1) := by
  have hlen : ps.length < (q.list name).length + 1 := by rw [hlist]; simp; omega
  obtain ⟨q1, h1, h2, h3, h4⟩ :=
    GetSinkLoop_spec name ps pre rest q [] _ hlist hpre hclean hstop hlen
  have he := GetSink_eq (T := T) q name _ (Nat.lt_succ_self _)
  rw [h1] at he
  simp only [List.nil_append, Option.some.injEq] at he
  refine ⟨fun fuel hf => GetSink_eq q name fuel hf, ?_, ?_, ?_, ?_⟩
  · rw [← he]
  · rw [← he]; exact h3
  · rw [← he]; exact h4
  · rw [← he]; exact h2

/-- The error result of `os.Stat` never satisfies `os.IsExist`. -/
theorem IsExist_osStat (filePath : String) (w : World) :
    IsExist (osStat filePath w).1 = false := by
  unfold osStat
  rcases w.call with ⟨b, w1⟩
  cases b with
  | true => rfl
  | false =>
    simp only
    cases w1.fs.file filePath <;> rfl

/-- So `saveDBToFile` is `os.Stat` followed by `VACUUM INTO`. -/
theorem saveDBToFile_eq (db : SqlDB) (filePath : String) (w : World) :
    saveDBToFile db filePath w = vacuumInto db filePath (osStat filePath w).2 := by
  have := IsExist_osStat filePath w
  unfold saveDBToFile
  rcases hs : osStat filePath w with ⟨err, w1⟩
  rw [hs] at this
  simp only at this
  simp [this]

theorem Tables.append_get_other (t : Tables) (name other : String) (rows : List Row)
    (h : other ≠ name) : (t.append name rows).get other = t.get other := by
  unfold Tables.append
  cases t.get name with
  | none => rfl
  | some old => exact Tables.get_set_other _ _ _ _ h

theorem Tables.append_complete (t : Tables) (name : String) (rows : List Row)
    (h : t.complete = true) : (t.append name rows).complete = true := by
  rcases t with ⟨tr, ac, ov⟩
  simp only [Tables.complete, Bool.and_eq_true] at h ⊢
  unfold Tables.append Tables.get Tables.set
  split_ifs <;> simp_all <;> (split <;> simp_all)

/-! ## Facts about the cycle -/

theorem World.call_world_eq (w : World) :
    w.call = ((nextFault w.faults).1, { w with faults := w.faults.drop 1 }) := by
  simp [World.call, nextFault_snd]

theorem osRemove_frame (path : String) (w : World) :
    (osRemove path w).2.redis = w.redis ∧ (osRemove path w).2.s3 = w.s3 := by
  simp only [osRemove, World.call_world_eq]
  cases (nextFault w.faults).1 with
  | true => exact ⟨rfl, rfl⟩
  | false =>
    simp only
    cases FileSystem.file w.fs path <;> exact ⟨rfl, rfl⟩

theorem ImportSqlite_frame (w : World) :
    (ImportSqlite w).2.redis = w.redis ∧ (ImportSqlite w).2.s3 = w.s3 := by
  simp only [ImportSqlite, osCreate, World.call_world_eq]
  cases (nextFault w.faults).1 with
  | true => exact ⟨rfl, rfl⟩
  | false =>
    simp only
    cases (nextFault (List.drop 1 w.faults)).1 with
    | true => exact ⟨rfl, rfl⟩
    | false =>
      simp only
      cases (nextFault (List.drop 1 (List.drop 1 w.faults))).1 with
      | true => exact ⟨rfl, rfl⟩
      | false =>
        simp only
        cases hs : w.s3 with
        | none =>
          simp only
          cases (nextFault (List.drop 1 (List.drop 1 (List.drop 1 w.faults)))).1 <;>
            exact ⟨rfl, hs.symm ▸ rfl⟩
        | some body =>
          simp only
          cases (nextFault (List.drop 1 (List.drop 1 (List.drop 1 w.faults)))).1 <;>
            exact ⟨rfl, hs.symm ▸ rfl⟩

/-- A successful download puts the remote snapshot into `/tmp/health.sqlite`. -/
theorem ImportSqlite_ok (w : World) (body : FileData) (h : (ImportSqlite w).1 = none)
    (hs : w.s3 = some body) :
    (ImportSqlite w).2.fs.file "/tmp/health.sqlite" = some body := by
  revert h
  simp only [ImportSqlite, osCreate, World.call_world_eq]
  cases (nextFault w.faults).1 with
  | true => intro h; simp at h
  | false =>
    simp only
    cases (nextFault (List.drop 1 w.faults)).1 with
    | true => intro h; simp at h
    | false =>
      simp only
      cases (nextFault (List.drop 1 (List.drop 1 w.faults))).1 with
      | true => intro h; simp at h
      | false =>
        simp only [hs]
        cases (nextFault (List.drop 1 (List.drop 1 (List.drop 1 w.faults)))).1 with
        | true => intro h; simp at h
        | false => intro _; simp [FileSystem.file, FileSystem.write]

theorem sqlOpen_frame (path : String) (f : List Bool) (w : World) :
    (sqlOpen path f w).2.redis = w.redis ∧ (sqlOpen path f w).2.s3 = w.s3 ∧
    (sqlOpen path f w).1.Db.trace = [] ∧
    (∀ t, w.fs.file path = some (.image t) → (sqlOpen path f w).1.Db.tables = t) := by
  unfold sqlOpen
  cases hf : w.fs.file path with
  | none => exact ⟨rfl, rfl, rfl, fun t h => by cases h⟩
  | some d =>
    cases d with
    | empty => exact ⟨rfl, rfl, rfl, fun t h => by cases h⟩
    | image t0 => exact ⟨rfl, rfl, rfl, fun t h => by cases h; rfl⟩

/-- What `InitDatabase` leaves: Redis and the remote object as they were, and on success
a fresh connection whose content is that of the remote snapshot. -/
theorem InitDatabase_spec (f : List Bool) (w : World) :
    (InitDatabase false f w).2.redis = w.redis ∧ (InitDatabase false f w).2.s3 = w.s3 ∧
    ∀ db, (InitDatabase false f w).1 = .ok db →
      db.Db.trace = [] ∧ ∀ t, w.s3 = some (.image t) → db.Db.tables = t := by
  have r1 := osRemove_frame "/tmp/health.sqlite" w
  have r2 := osRemove_frame "/tmp/out.sqlite" (osRemove "/tmp/health.sqlite" w).2
  have hb : (osRemove "/tmp/out.sqlite" (osRemove "/tmp/health.sqlite" w).2).2.redis = w.redis ∧
      (osRemove "/tmp/out.sqlite" (osRemove "/tmp/health.sqlite" w).2).2.s3 = w.s3 :=
    ⟨r2.1.trans r1.1, r2.2.trans r1.2⟩
  unfold InitDatabase
  simp only [Bool.false_eq_true, if_false]
  generalize (osRemove "/tmp/out.sqlite" (osRemove "/tmp/health.sqlite" w).2).2 = wb at hb ⊢
  have r3 := ImportSqlite_frame wb
  have r4 := ImportSqlite_ok wb
  rcases hi : ImportSqlite wb with ⟨e3, wc⟩
  rw [hi] at r3 r4
  simp only at r3 r4
  cases e3 with
  | some err =>
    exact ⟨by rw [r3.1, hb.1], by rw [r3.2, hb.2], fun db h => by cases h⟩
  | none =>
    have r5 := sqlOpen_frame "/tmp/health.sqlite" f wc
    simp only
    refine ⟨by rw [r5.1, r3.1, hb.1], by rw [r5.2.1, r3.2, hb.2], ?_⟩
    intro db h
    cases h
    exact ⟨r5.2.2.1, fun t ht => r5.2.2.2 t (r4 _ rfl (by rw [hb.2, ht]))⟩

/-- What `Init` leaves: the lists, the files and the remote object are as they were. -/
theorem Init_spec (w : World) :
    (Init w).2.fs = w.fs ∧ (Init w).2.s3 = w.s3 ∧
    (Init w).2.redis.overall = w.redis.overall ∧
    (Init w).2.redis.triggers = w.redis.triggers ∧
    (Init w).2.redis.actions = w.redis.actions ∧
    ∀ q, (Init w).1 = .ok q →
      q = (Init w).2.redis ∧ q.faults = w.redis.faults.drop 1 ∧
      (nextFault w.redis.faults).1 = false := by
  simp only [Init, World.call_world_eq]
  cases (nextFault w.faults).1 with
  | true => exact ⟨rfl, rfl, rfl, rfl, rfl, fun q h => by cases h⟩
  | false =>
    simp only
    have hn : nextFault w.redis.faults =
      ((nextFault w.redis.faults).1, w.redis.faults.drop 1) := by rw [← nextFault_snd]
    rw [hn]
    cases hb : (nextFault w.redis.faults).1 with
    | true => exact ⟨rfl, rfl, rfl, rfl, rfl, fun q h => by cases h⟩
    | false =>
      refine ⟨rfl, rfl, rfl, rfl, rfl, fun q h => ?_⟩
      cases h
      exact ⟨rfl, rfl, rfl⟩

theorem TableExists_frame (db : SqlDB) (name : String) :
    (TableExists db name).2.tables = db.tables ∧
    (TableExists db name).2.trace = db.trace ++ [.tableCount name] := by
  simp only [TableExists, SqlDB.call_eq]
  cases (nextFault db.faults).1 <;> exact ⟨rfl, rfl⟩

theorem checkExistenceLoop_frame : ∀ (names : List String) (db : SqlDB),
    (checkExistenceLoop names db).2.tables = db.tables ∧
    ((checkExistenceLoop names db).2.trace.all DbOp.isSchemaOp =
      db.trace.all DbOp.isSchemaOp) := by
  intro names
  induction names with
  | nil => intro db; exact ⟨rfl, rfl⟩
  | cons n ns ih =>
    intro db
    have h := TableExists_frame db n
    simp only [checkExistenceLoop]
    rcases hte : TableExists db n with ⟨⟨pres, e⟩, db1⟩
    rw [hte] at h
    simp only at h ⊢
    have ht : db1.trace.all DbOp.isSchemaOp = db.trace.all DbOp.isSchemaOp := by
      rw [h.2]; simp [DbOp.isSchemaOp]
    cases pres with
    | false => simp only [Bool.not_false, if_true]; exact ⟨h.1, ht⟩
    | true =>
      simp only [Bool.not_true, Bool.false_eq_true, if_false]
      rw [(ih db1).1, (ih db1).2]
      exact ⟨h.1, ht⟩

/-- The existence check changes neither the content of the store nor the kind of
driver calls made. -/
theorem checkExistence_frame (db : Database) :
    db.checkExistence.2.Db.tables = db.Db.tables ∧
    db.checkExistence.2.Db.trace.all DbOp.isSchemaOp = db.Db.trace.all DbOp.isSchemaOp :=
  checkExistenceLoop_frame _ db.Db

theorem Tables.rows_set_empty (t : Tables) (name other : String) (h : t.get name = none) :
    (t.set name (some [])).rows other = t.rows other := by
  rcases t with ⟨tr, ac, ov⟩
  unfold Tables.get at h
  unfold Tables.rows Tables.get Tables.set
  split_ifs at h ⊢ <;> simp_all

/-- The table script adds no row and makes only `CREATE TABLE` calls. -/
theorem execScript_frame : ∀ (script : List CreateStmt) (db : SqlDB),
    (∀ name, (execScript script db).2.tables.rows name = db.tables.rows name) ∧
    ((execScript script db).2.trace.all DbOp.isSchemaOp = db.trace.all DbOp.isSchemaOp) := by
  intro script
  induction script with
  | nil => intro db; exact ⟨fun _ => rfl, rfl⟩
  | cons st rest ih =>
    intro db
    simp only [execScript, SqlDB.call_eq]
    have ht : ∀ t : Tables, (List.all (db.trace ++ [DbOp.create st]) DbOp.isSchemaOp) =
        db.trace.all DbOp.isSchemaOp := by
      intro _; simp [DbOp.isSchemaOp]
    cases (nextFault db.faults).1 with
    | true => exact ⟨fun _ => rfl, ht db.tables⟩
    | false =>
      simp only
      cases hg : db.tables.get st.table with
      | some rows =>
        simp only
        cases st.ifNotExists with
        | false => exact ⟨fun _ => rfl, ht db.tables⟩
        | true =>
          simp only [if_true]
          refine ⟨fun name => by rw [(ih _).1 name], by rw [(ih _).2]; exact ht db.tables⟩
      | none =>
        simp only
        refine ⟨fun name => by rw [(ih _).1 name]; exact Tables.rows_set_empty _ _ _ hg,
          by rw [(ih _).2]; exact ht db.tables⟩

/-- What `CreateTables` leaves: the world but for its fault schedule, the rows of the
store, and a trace extended by `CREATE TABLE` calls only. -/
theorem CreateTables_frame (db : Database) (w : World) :
    (CreateTables db w).2.2.redis = w.redis ∧ (CreateTables db w).2.2.s3 = w.s3 ∧
    (CreateTables db w).2.2.fs = w.fs ∧
    (∀ name, (CreateTables db w).2.1.Db.tables.rows name = db.Db.tables.rows name) ∧
    (CreateTables db w).2.1.Db.trace.all DbOp.isSchemaOp =
      db.Db.trace.all DbOp.isSchemaOp := by
  simp only [CreateTables, World.call_world_eq]
  cases (nextFault w.faults).1 with
  | true => exact ⟨rfl, rfl, rfl, fun _ => rfl, rfl⟩
  | false =>
    simp only
    cases w.fs.tablesSql with
    | none => exact ⟨rfl, rfl, rfl, fun _ => rfl, rfl⟩
    | some contents =>
      simp only
      cases (nextFault (List.drop 1 w.faults)).1 with
      | true => exact ⟨rfl, rfl, rfl, fun _ => rfl, rfl⟩
      | false =>
        simp only
        have h := execScript_frame contents db.Db
        rcases hx : execScript contents db.Db with ⟨e, db1⟩
        rw [hx] at h
        cases e <;> exact ⟨rfl, rfl, rfl, h.1, h.2⟩

/-! ## Facts about two cycles in sequence -/

theorem exists_values {T : Type} [SinkRecord T] : ∀ ps : List Payload,
    (∀ p ∈ ps, (SinkRecord.unmarshal p : Option T).isSome = true) →
    ∃ pre : List T, ps.map SinkRecord.unmarshal = pre.map some := by
  intro ps
  induction ps with
  | nil => intro _; exact ⟨[], rfl⟩
  | cons p ps ih =>
    intro h
    obtain ⟨pre, hpre⟩ := ih (fun x hx => h x (List.mem_cons_of_mem _ hx))
    obtain ⟨v, hv⟩ := Option.isSome_iff_exists.mp (h p (List.mem_cons_self _ _))
    exact ⟨v :: pre, by simp [hv, hpre]⟩

/-- A drain of well-formed items over a transport without faults empties its list. -/
theorem GetSink_all_valid {T : Type} [SinkRecord T] (q : Queue) (name : String)
    (hv : ∀ p ∈ q.list name, (SinkRecord.unmarshal p : Option T).isSome = true)
    (hc : ∀ n, clean n q.faults = true) :
    (GetSink q name : List T × Queue).2.list name = [] ∧
    (∀ other, other ≠ name → (GetSink q name : List T × Queue).2.list other = q.list other) ∧
    (∀ n, clean n (GetSink q name : List T × Queue).2.faults = true) := by
  obtain ⟨pre, hpre⟩ := exists_values (T := T) (q.list name) hv
  have h := GetSink_drain (T := T) q name (q.list name) [] pre (by simp) hpre (hc _)
    (Or.inl rfl)
  refine ⟨?_, h.2.2.2.1, fun n => ?_⟩
  · rw [h.2.2.1]; split <;> rfl
  · rw [h.2.2.2.2]; exact clean_drop _ n _ (hc _)

/-- A drain of an empty list returns nothing and leaves every list as it was. -/
theorem GetSink_empty {T : Type} [SinkRecord T] (q : Queue) (name : String)
    (he : q.list name = []) :
    (GetSink q name : List T × Queue).1 = [] ∧
    (∀ other, (GetSink q name : List T × Queue).2.list other = q.list other) := by
  have h := GetSink_drain (T := T) q name [] [] [] (by simp [he]) rfl rfl (Or.inl rfl)
  refine ⟨h.2.1, fun other => ?_⟩
  by_cases ho : other = name
  · subst ho
    rw [h.2.2.1, he]; split <;> rfl
  · exact h.2.2.2.1 other ho

theorem Queue.list_overall (q : Queue) : q.list "health-overall" = q.overall := rfl

theorem Queue.list_triggers (q : Queue) : q.list "health-triggers" = q.triggers := rfl

theorem Queue.list_actions (q : Queue) : q.list "health-actions" = q.actions := rfl

/-- A `ProcessAndStore` without error over well-formed queues and a transport without
faults leaves the three lists empty. -/
theorem ProcessAndStore_drains (db : SqlDB) (q : Queue) (h : (ProcessAndStore db q).1 = none)
    (hwf : q.wellFormed = true) (hc : ∀ n, clean n q.faults = true) :
    (ProcessAndStore db q).2.2.drained = true := by
  simp only [Queue.wellFormed, Bool.and_eq_true, List.all_eq_true] at hwf
  have g1 := GetSink_all_valid (T := Overall) q "health-overall" hwf.1.1 hc
  rcases hov : (GetSink q "health-overall" : List Overall × Queue) with ⟨ovs, q1⟩
  rw [hov] at g1
  simp only at g1
  have g2 := GetSink_all_valid (T := Trigger) q1 "health-triggers"
    (by rw [g1.2.1 _ (by decide)]; exact hwf.1.2) g1.2.2
  rcases htr : (GetSink q1 "health-triggers" : List Trigger × Queue) with ⟨trs, q2⟩
  rw [htr] at g2
  simp only at g2
  have g3 := GetSink_all_valid (T := Action) q2 "health-actions"
    (by rw [g2.2.1 _ (by decide), g1.2.1 _ (by decide)]; exact hwf.2) g2.2.2
  rcases hac : (GetSink q2 "health-actions" : List Action × Queue) with ⟨acs, q3⟩
  rw [hac] at g3
  simp only at g3
  have e1 : q3.overall = [] := by
    rw [← Queue.list_overall, g3.2.1 _ (by decide), g2.2.1 _ (by decide)]; exact g1.1
  have e2 : q3.triggers = [] := by
    rw [← Queue.list_triggers, g3.2.1 _ (by decide)]; exact g2.1
  have e3 : q3.actions = [] := g3.1
  revert h
  simp only [ProcessAndStore, hov, htr, hac]
  rcases InsertRecords db ovs with ⟨r1, db1⟩
  cases r1 with
  | some e => intro h; cases h
  | none =>
    simp only
    rcases InsertRecords db1 trs with ⟨r2, db2⟩
    cases r2 with
    | some e => intro h; cases h
    | none =>
      simp only
      rcases InsertRecords db2 acs with ⟨r3, db3⟩
      cases r3 with
      | some e => intro h; cases h
      | none =>
        intro _
        simp [Queue.drained, e1, e2, e3]

/-- On empty lists `ProcessAndStore` inserts nothing and returns no error. -/
theorem ProcessAndStore_of_drained (db : SqlDB) (q : Queue) (hd : q.drained = true) :
    (ProcessAndStore db q).1 = none ∧ (ProcessAndStore db q).2.1 = db ∧
    (ProcessAndStore db q).2.2.drained = true := by
  simp only [Queue.drained, Bool.and_eq_true, List.isEmpty_iff] at hd
  have g1 := GetSink_empty (T := Overall) q "health-overall" hd.1.1
  rcases hov : (GetSink q "health-overall" : List Overall × Queue) with ⟨ovs, q1⟩
  rw [hov] at g1
  simp only at g1
  have g2 := GetSink_empty (T := Trigger) q1 "health-triggers"
    (by rw [g1.2]; exact hd.1.2)
  rcases htr : (GetSink q1 "health-triggers" : List Trigger × Queue) with ⟨trs, q2⟩
  rw [htr] at g2
  simp only at g2
  have g3 := GetSink_empty (T := Action) q2 "health-actions"
    (by rw [g2.2, g1.2]; exact hd.2)
  rcases hac : (GetSink q2 "health-actions" : List Action × Queue) with ⟨acs, q3⟩
  rw [hac] at g3
  simp only at g3
  have e1 : q3.overall = [] := by
    rw [← Queue.list_overall, g3.2, g2.2, g1.2]; exact hd.1.1
  have e2 : q3.triggers = [] := by
    rw [← Queue.list_triggers, g3.2, g2.2, g1.2]; exact hd.1.2
  have e3 : q3.actions = [] := by
    rw [← Queue.list_actions, g3.2, g2.2, g1.2]; exact hd.2
  simp only [ProcessAndStore, hov, htr, hac, g1.1, g2.1, g3.1, InsertRecords]
  simp [Queue.drained, e1, e2, e3]

theorem osStat_frame (path : String) (w : World) :
    (osStat path w).2.fs = w.fs ∧ (osStat path w).2.redis = w.redis ∧
    (osStat path w).2.s3 = w.s3 := by
  simp only [osStat, World.call_world_eq]
  cases (nextFault w.faults).1 with
  | true => exact ⟨rfl, rfl, rfl⟩
  | false =>
    simp only
    cases FileSystem.file w.fs path <;> exact ⟨rfl, rfl, rfl⟩

/-- What `saveDBToFile` on `/tmp/out.sqlite` leaves: the store content, Redis and the
remote object as they were, and on success the snapshot of the store in the file. -/
theorem saveDBToFile_spec (db : SqlDB) (w : World) :
    (saveDBToFile db "/tmp/out.sqlite" w).2.1.tables = db.tables ∧
    (saveDBToFile db "/tmp/out.sqlite" w).2.2.redis = w.redis ∧
    (saveDBToFile db "/tmp/out.sqlite" w).2.2.s3 = w.s3 ∧
    ((saveDBToFile db "/tmp/out.sqlite" w).1 = none →
      (saveDBToFile db "/tmp/out.sqlite" w).2.2.fs.out = some (.image db.tables)) := by
  rw [saveDBToFile_eq]
  have hs := osStat_frame "/tmp/out.sqlite" w
  generalize (osStat "/tmp/out.sqlite" w).2 = w1 at hs ⊢
  simp only [vacuumInto, SqlDB.call_eq]
  cases (nextFault db.faults).1 with
  | true => exact ⟨rfl, hs.2.1, hs.2.2, fun h => by cases h⟩
  | false =>
    simp only
    cases hf : w1.fs.file "/tmp/out.sqlite" with
    | none => exact ⟨rfl, hs.2.1, hs.2.2, fun _ => by simp [FileSystem.write]⟩
    | some d =>
      cases d with
      | empty => exact ⟨rfl, hs.2.1, hs.2.2, fun _ => by simp [FileSystem.write]⟩
      | image t => exact ⟨rfl, hs.2.1, hs.2.2, fun h => by cases h⟩

/-- What `ExportSqlite` leaves: Redis as it was, and on success the snapshot file as
the remote object. -/
theorem ExportSqlite_spec (w : World) :
    (ExportSqlite w).2.redis = w.redis ∧
    ((ExportSqlite w).1 = none → (ExportSqlite w).2.s3 = w.fs.out) := by
  simp only [ExportSqlite, World.call_world_eq]
  cases (nextFault w.faults).1 with
  | true => exact ⟨rfl, fun h => by cases h⟩
  | false =>
    simp only
    cases (nextFault (List.drop 1 w.faults)).1 with
    | true => exact ⟨rfl, fun h => by cases h⟩
    | false =>
      simp only
      have hf : FileSystem.file w.fs "/tmp/out.sqlite" = w.fs.out := rfl
      rw [hf]
      cases ho : w.fs.out with
      | none => exact ⟨rfl, fun h => by cases h⟩
      | some body =>
        simp only
        cases (nextFault (List.drop 1 (List.drop 1 w.faults))).1 <;>
          first
          | exact ⟨rfl, fun _ => rfl⟩
          | exact ⟨rfl, fun h => by cases h⟩

/-- The tail of a successful cycle over well-formed queues: the lists end up empty and
the remote object is the snapshot of the final store. -/
theorem storeSaveExport_first (db : Database) (q : Queue) (w : World)
    (h : (storeSaveExport db q w).outcome = .returned none)
    (hwf : q.wellFormed = true) (hc : ∀ n, clean n q.faults = true) :
    (storeSaveExport db q w).world.redis.drained = true ∧
    ∃ d, (storeSaveExport db q w).db = some d ∧
      (storeSaveExport db q w).world.s3 = some (.image d.Db.tables) := by
  have hp := ProcessAndStore_drains db.Db q
  revert h
  simp only [storeSaveExport]
  rcases hpe : ProcessAndStore db.Db q with ⟨e, db1, q1⟩
  rw [hpe] at hp
  cases e with
  | some err => intro h; simp at h
  | none =>
    simp only
    have hs := saveDBToFile_spec db1 { w with redis := q1 }
    rcases hse : saveDBToFile db1 "/tmp/out.sqlite" { w with redis := q1 } with ⟨e2, db2, w1⟩
    rw [hse] at hs
    simp only at hs
    cases e2 with
    | some err => intro h; simp at h
    | none =>
      simp only
      have hx := ExportSqlite_spec w1
      rcases hxe : ExportSqlite w1 with ⟨e3, w2⟩
      rw [hxe] at hx
      simp only at hx
      cases e3 with
      | some err => intro h; simp at h
      | none =>
        intro _
        refine ⟨?_, ⟨db2⟩, rfl, ?_⟩
        · show w2.redis.drained = true
          rw [hx.1, hs.2.1]
          exact hp rfl hwf hc
        · show w2.s3 = some (.image db2.tables)
          rw [hx.2 rfl, hs.2.2.2 rfl, hs.1]

/-- The tail of a cycle over empty lists leaves the content of the store as it was. -/
theorem storeSaveExport_of_drained (db : Database) (q : Queue) (w : World)
    (hd : q.drained = true) :
    ∃ d, (storeSaveExport db q w).db = some d ∧ d.Db.tables = db.Db.tables := by
  have hp := ProcessAndStore_of_drained db.Db q hd
  simp only [storeSaveExport]
  rcases hpe : ProcessAndStore db.Db q with ⟨e, db1, q1⟩
  rw [hpe] at hp
  simp only at hp
  obtain ⟨he, hdb, -⟩ := hp
  subst he hdb
  simp only
  have hs := saveDBToFile_spec db.Db { w with redis := q1 }
  rcases hse : saveDBToFile db.Db "/tmp/out.sqlite" { w with redis := q1 } with ⟨e2, db2, w1⟩
  rw [hse] at hs
  simp only at hs
  cases e2 with
  | some err => exact ⟨⟨db2⟩, rfl, hs.1⟩
  | none =>
    simp only
    rcases ExportSqlite w1 with ⟨e3, w2⟩
    cases e3 <;> exact ⟨⟨db2⟩, rfl, hs.1⟩

/-- A successful cycle over well-formed queues and a transport without faults leaves the
three lists empty and the snapshot of its final store as the remote object. -/
theorem RefreshSink_first (f : List Bool) (w : World)
    (h : (RefreshSink f w).outcome = .returned none)
    (hwf : w.redis.wellFormed = true) (hc : ∀ n, clean n w.redis.faults = true) :
    (RefreshSink f w).world.redis.drained = true ∧
    ∃ d, (RefreshSink f w).db = some d ∧
      (RefreshSink f w).world.s3 = some (.image d.Db.tables) := by
  have hi := InitDatabase_spec f w
  revert h
  simp only [RefreshSink]
  rcases hI : InitDatabase false f w with ⟨r, w1⟩
  rw [hI] at hi
  simp only at hi
  cases r with
  | error err => intro h; simp at h
  | ok db =>
    simp only
    have hn := Init_spec w1
    rcases hN : Init w1 with ⟨r2, w2⟩
    rw [hN] at hn
    simp only at hn
    cases r2 with
    | error err => intro h; simp at h
    | ok q =>
      simp only
      obtain ⟨hq, hqf, -⟩ := hn.2.2.2.2.2 q rfl
      have hqwf : q.wellFormed = true := by
        rw [hq]
        simp only [Queue.wellFormed, hn.2.2.1, hn.2.2.2.1, hn.2.2.2.2.1, hi.1]
        exact hwf
      have hqc : ∀ n, clean n q.faults = true := by
        intro n
        rw [hqf, hi.1]
        exact clean_drop 1 n _ (hc _)
      rcases db.checkExistence with ⟨b, db1⟩
      cases b with
      | true =>
        simp only
        intro h
        exact storeSaveExport_first db1 q w2 h hqwf hqc
      | false =>
        simp only
        rcases CreateTables db1 w2 with ⟨o, db2, w3⟩
        cases o with
        | exited => intro h; simp at h
        | returned e =>
          cases e with
          | some err => intro h; simp at h
          | none =>
            simp only
            intro h
            exact storeSaveExport_first db2 q w3 h hqwf hqc

/-- A cycle that starts with empty lists and a remote snapshot adds no row to what the
snapshot holds, however it ends. -/
theorem RefreshSink_second (f : List Bool) (w : World) (t : Tables)
    (hd : w.redis.drained = true) (hs : w.s3 = some (.image t)) :
    ∀ d, (RefreshSink f w).db = some d → ∀ name, d.Db.tables.rows name = t.rows name := by
  have hi := InitDatabase_spec f w
  simp only [RefreshSink]
  rcases hI : InitDatabase false f w with ⟨r, w1⟩
  rw [hI] at hi
  simp only at hi
  cases r with
  | error err => intro d h; simp at h
  | ok db =>
    simp only
    have ht : db.Db.tables = t := (hi.2.2 db rfl).2 t hs
    have hn := Init_spec w1
    rcases hN : Init w1 with ⟨r2, w2⟩
    rw [hN] at hn
    simp only at hn
    cases r2 with
    | error err =>
      intro d h name
      simp only [Option.some.injEq] at h
      rw [← h, ht]
    | ok q =>
      simp only
      obtain ⟨hq, -, -⟩ := hn.2.2.2.2.2 q rfl
      have hqd : q.drained = true := by
        rw [hq]
        simp only [Queue.drained, hn.2.2.1, hn.2.2.2.1, hn.2.2.2.2.1, hi.1]
        exact hd
      have hc := checkExistence_frame db
      rcases hx : db.checkExistence with ⟨b, db1⟩
      rw [hx] at hc
      simp only at hc
      cases b with
      | true =>
        simp only
        intro d h name
        obtain ⟨d1, h1, h2⟩ := storeSaveExport_of_drained db1 q w2 hqd
        rw [h1] at h
        simp only [Option.some.injEq] at h
        rw [← h, h2, hc.1, ht]
      | false =>
        simp only
        have hk := CreateTables_frame db1 w2
        rcases hy : CreateTables db1 w2 with ⟨o, db2, w3⟩
        rw [hy] at hk
        simp only at hk
        have hrows : ∀ name, db2.Db.tables.rows name = t.rows name := by
          intro name
          rw [hk.2.2.2.1 name, hc.1, ht]
        cases o with
        | exited =>
          intro d h name
          simp only [Option.some.injEq] at h
          rw [← h]; exact hrows name
        | returned e =>
          cases e with
          | some err =>
            intro d h name
            simp only [Option.some.injEq] at h
            rw [← h]; exact hrows name
          | none =>
            simp only
            intro d h name
            obtain ⟨d1, h1, h2⟩ := storeSaveExport_of_drained db2 q w3 hqd
            rw [h1] at h
            simp only [Option.some.injEq] at h
            rw [← h, h2]; exact hrows name

theorem RefreshSink_db_of_returned_none (f : List Bool) (w : World)
    (h : (RefreshSink f w).outcome = .returned none) : ∃ d, (RefreshSink f w).db = some d := by
  revert h
  simp only [RefreshSink]
  rcases InitDatabase false f w with ⟨r, w1⟩
  cases r with
  | error err => intro h; simp at h
  | ok db =>
    simp only
    rcases Init w1 with ⟨r2, w2⟩
    cases r2 with
    | error err => intro h; simp at h
    | ok q =>
      simp only
      have key : ∀ d q w, ∃ d1, (storeSaveExport d q w).db = some d1 := by
        intro d q w
        simp only [storeSaveExport]
        rcases ProcessAndStore d.Db q with ⟨e, db1, q1⟩
        cases e with
        | some err => exact ⟨_, rfl⟩
        | none =>
          simp only
          rcases saveDBToFile db1 "/tmp/out.sqlite" { w with redis := q1 } with ⟨e2, db2, w1⟩
          cases e2 with
          | some err => exact ⟨_, rfl⟩
          | none =>
            simp only
            rcases ExportSqlite w1 with ⟨e3, w2⟩
            cases e3 <;> exact ⟨_, rfl⟩
      rcases db.checkExistence with ⟨b, db1⟩
      cases b with
      | true => intro _; exact key _ _ _
      | false =>
        simp only
        rcases CreateTables db1 w2 with ⟨o, db2, w3⟩
        cases o with
        | exited => intro h; simp at h
        | returned e =>
          cases e with
          | some err => intro h; simp at h
          | none => intro _; exact key _ _ _

/-! ## The claims -/

/-- C1: `InsertRecords` on a non-empty batch is all-or-nothing.  Either it returns no
error and the table of the kind holds its earlier rows followed by one row per record
of the batch, or it returns an error and the committed content of the store is exactly
what it was before the call.  The second case is the one that occurs whenever one of
the driver calls `Begin`, `Prepare`, an `Exec` or `Commit` fails. -/
theorem InsertRecords_all_or_nothing {T : Type} [SinkRecord T] (db : SqlDB) (first : T)
    (rest : List T) :
    (((InsertRecords db (first :: rest)).1 = none ∧
        ∃ old, db.tables.get (insertQuery (SinkRecord.toAny first)).table = some old ∧
          (InsertRecords db (first :: rest)).2.tables.get
              (insertQuery (SinkRecord.toAny first)).table =
            some (old ++ (first :: rest).map (fun r =>
              (insertQuery (SinkRecord.toAny first)).columns.zip
                (execArgs (SinkRecord.toAny r))))) ∨
      ((InsertRecords db (first :: rest)).1 ≠ none ∧
        (InsertRecords db (first :: rest)).2.tables = db.tables)) ∧
    (clean ((first :: rest).length + 3) db.faults = false →
      (InsertRecords db (first :: rest)).1 ≠ none ∧
        (InsertRecords db (first :: rest)).2.tables = db.tables) := by
  rcases InsertRecords_cases db first rest with ⟨hc, old, hg, he⟩ | ⟨e, h1, h2⟩
  · refine ⟨Or.inl ⟨by rw [he], old, hg, ?_⟩, fun h => ?_⟩
    · rw [he]
      exact Tables.get_set _ _ _ (by rw [hg]; rfl)
    · rw [hc] at h; cases h
  · exact ⟨Or.inr ⟨by rw [h1]; simp, h2⟩, fun _ => ⟨by rw [h1]; simp, h2⟩⟩

/-- C2: `GetSink` returns exactly the values of the items popped before the first
failing `SinkType` call, in pop order, and pops nothing after that failure.  With `ps`
the well-formed items at the head of the list (values `pre`) and `rest` what follows
them, where the next call fails because `rest` is empty, because the pop fails, or
because the head of `rest` is malformed: the loop ends within `length + 1` iterations,
the result is `pre`, and the list keeps `rest` without its head if that head was popped
(the malformed item) and all of `rest` otherwise; the other lists are untouched.  In
particular an empty list yields the empty sequence, and a first malformed item at
position `k` yields the `k - 1` items before it and leaves the items after it queued. -/
theorem GetSink_stops_at_first_failure {T : Type} [SinkRecord T] (q : Queue) (name : String)
    (ps rest : List Payload) (pre : List T)
    (hlist : q.list name = ps ++ rest)
    (hpre : ps.map SinkRecord.unmarshal = pre.map some)
    (hclean : clean ps.length q.faults = true)
    (hstop : rest = [] ∨ (nextFault (q.faults.drop ps.length)).1 = true ∨
      ∃ bad tl, rest = bad :: tl ∧ (SinkRecord.unmarshal bad : Option T) = none) :
    (∀ fuel, (q.list name).length < fuel →
      GetSinkLoop name fuel q ([] : List T) = some (GetSink q name)) ∧
    (GetSink q name : List T × Queue).1 = pre ∧
    (GetSink q name : List T × Queue).2.list name =
      (if (nextFault (q.faults.drop ps.length)).1 = true then rest else rest.tail) ∧
    (∀ other, other ≠ name →
      (GetSink q name : List T × Queue).2.list other = q.list other) ∧
    (GetSink q name : List T × Queue).2.faults = q.faults.drop (ps.length + 1) :=
  GetSink_drain q name ps rest pre hlist hpre hclean hstop

/-- Witness of C2: the drain of `mixedQueue` returns the first trigger and leaves the
item after the malformed one queued. -/
theorem GetSink_stops_at_first_failure_witness :
    (GetSink mixedQueue "health-triggers" : List Trigger × Queue).1 = [sampleTrigger] ∧
    (GetSink mixedQueue "health-triggers" : List Trigger × Queue).2.list "health-triggers" =
      [goodItem2] :=
  have h := GetSink_stops_at_first_failure (T := Trigger) mixedQueue "health-triggers"
    [goodItem] [badItem, goodItem2] [sampleTrigger] (by decide) (by decide) (by decide)
    (Or.inr (Or.inr ⟨badItem, [goodItem2], rfl, rfl⟩))
  ⟨h.2.1, h.2.2.1⟩

/-- C3: a successful `InsertRecords` on a non-empty batch makes exactly these driver
calls: `Begin`, one `Prepare` of the statement of the kind, one `Exec` per record in
input order with the fields of the record as arguments, and `Commit`; the rows added
bind the fields to the columns by position.  The statements and arguments are, for
`Trigger`: id, timestamp, type, intensity, compulsion, notes; for `Action`: id,
timestamp, type, relief, duration, notes; for `Overall`: id, timestamp, clean_streak,
gym_session, coding_hours, reading_hours, mood_score.  On the empty batch it returns no
error and makes no driver call at all. -/
theorem InsertRecords_once_per_record {T : Type} [SinkRecord T] (db : SqlDB) (first : T)
    (rest : List T) (hok : (InsertRecords db (first :: rest)).1 = none) :
    (InsertRecords db (first :: rest)).2.trace =
      db.trace ++ [.begin, .prepare (insertQuery (SinkRecord.toAny first))] ++
        (first :: rest).map (fun r =>
          .exec (insertQuery (SinkRecord.toAny first)) (execArgs (SinkRecord.toAny r))) ++
        [.commit] ∧
    (∃ old, db.tables.get (insertQuery (SinkRecord.toAny first)).table = some old ∧
      (InsertRecords db (first :: rest)).2.tables =
        db.tables.set (insertQuery (SinkRecord.toAny first)).table
          (some (old ++ (first :: rest).map (fun r =>
            (insertQuery (SinkRecord.toAny first)).columns.zip
              (execArgs (SinkRecord.toAny r)))))) ∧
    InsertRecords db ([] : List T) = (none, db) ∧
    (∀ v : Trigger,
      insertQuery (SinkRecord.toAny v) =
        ⟨"trigger", ["id", "timestamp", "type", "intensity", "compulsion", "notes"]⟩ ∧
      execArgs (SinkRecord.toAny v) =
        [.text v.Id, .text v.Timestamp, .text v.Type_, .int v.Intensity, .bool v.Compulsion,
          .text v.Notes]) ∧
    (∀ v : Action,
      insertQuery (SinkRecord.toAny v) =
        ⟨"action", ["id", "timestamp", "type", "relief", "duration", "notes"]⟩ ∧
      execArgs (SinkRecord.toAny v) =
        [.text v.Id, .text v.Timestamp, .text v.Type_, .bool v.Relief, .int v.Duration,
          .text v.Notes]) ∧
    (∀ v : Overall,
      insertQuery (SinkRecord.toAny v) =
        ⟨"overall", ["id", "timestamp", "clean_streak", "gym_session", "coding_hours",
          "reading_hours", "mood_score"]⟩ ∧
      execArgs (SinkRecord.toAny v) =
        [.text v.Id, .text v.Timestamp, .int v.CleanStreak, .bool v.GymSession,
          .int v.CodingHours, .int v.ReadingHours, .int v.MoodScore]) := by
  refine ⟨?_, ?_, rfl, fun _ => ⟨rfl, rfl⟩, fun _ => ⟨rfl, rfl⟩, fun _ => ⟨rfl, rfl⟩⟩
  · rcases InsertRecords_cases db first rest with ⟨-, old, -, he⟩ | ⟨e, h1, -⟩
    · rw [he]
    · rw [h1] at hok; cases hok
  · rcases InsertRecords_cases db first rest with ⟨-, old, hg, he⟩ | ⟨e, h1, -⟩
    · exact ⟨old, hg, by rw [he]⟩
    · rw [h1] at hok; cases hok

/-- Witness of C3: inserting two triggers into `emptyStore` succeeds, with one `Exec`
per trigger in input order. -/
theorem InsertRecords_once_per_record_witness :
    (InsertRecords emptyStore [sampleTrigger, sampleTrigger2]).1 = none ∧
    (InsertRecords emptyStore [sampleTrigger, sampleTrigger2]).2.trace =
      [.begin, .prepare (insertQuery (.trigger sampleTrigger)),
        .exec (insertQuery (.trigger sampleTrigger)) (execArgs (.trigger sampleTrigger)),
        .exec (insertQuery (.trigger sampleTrigger)) (execArgs (.trigger sampleTrigger2)),
        .commit] :=
  ⟨by decide,
    (InsertRecords_once_per_record emptyStore sampleTrigger [sampleTrigger2] (by decide)).1⟩

/-- C4: `checkExistence` returns true exactly when the three tables `trigger`, `action`
and `overall` are all present and none of the three existence queries fails; so it
returns false as soon as one table is absent or one query fails. -/
theorem checkExistence_iff (db : Database) :
    db.checkExistence.1 = true ↔
      (db.Db.tables.trigger.isSome = true ∧ db.Db.tables.action.isSome = true ∧
        db.Db.tables.overall.isSome = true ∧ clean 3 db.Db.faults = true) := by
  rcases db with ⟨⟨⟨tr, ac, ov⟩, fs, trace⟩⟩
  rcases fs with _ | ⟨b1, _ | ⟨b2, _ | ⟨b3, fs⟩⟩⟩ <;>
    cases tr <;> cases ac <;> cases ov <;>
    simp [Database.checkExistence, checkExistenceLoop, TableExists, SqlDB.call_eq, Tables.get,
      nextFault, clean] <;>
    (try cases b1) <;> (try cases b2) <;> (try cases b3) <;> simp

/-- C5: `ProcessAndStore` processes the three kinds one after the other, `Overall`,
then `Trigger`, then `Action`: each kind is drained from the queue the kind before it
left and inserted into the store the kind before it left.  Whenever the `InsertRecords`
of a kind fails, `ProcessAndStore` returns an error that wraps that failure, at once:
the store is the one that failing call left and the queue the one the drain of that
kind left, so the lists of the kinds after it are not popped.  The store then holds the
rows appended for the kinds before it (they stay committed) and the table of the
failing kind is what it was at the start.  When no `InsertRecords` fails, all three
kinds have been drained and inserted and no error is returned. -/
theorem ProcessAndStore_sequential (db : SqlDB) (q : Queue) :
    let ov := (GetSink q "health-overall" : List Overall × Queue)
    let tr := (GetSink ov.2 "health-triggers" : List Trigger × Queue)
    let ac := (GetSink tr.2 "health-actions" : List Action × Queue)
    let d1 := InsertRecords db ov.1
    let d2 := InsertRecords d1.2 tr.1
    let d3 := InsertRecords d2.2 ac.1
    (∀ e, d1.1 = some e →
      ProcessAndStore db q = (some (.wrap "failed to insert overall records" e), d1.2, ov.2) ∧
      d1.2.tables = db.tables ∧
      ov.2.triggers = q.triggers ∧ ov.2.actions = q.actions) ∧
    (d1.1 = none → ∀ e, d2.1 = some e →
      ProcessAndStore db q = (some (.wrap "failed to insert trigger records" e), d2.2, tr.2) ∧
      d2.2.tables = db.tables.append "overall" (ov.1.map (fun r => rowOf (.overall r))) ∧
      d2.2.tables.get "trigger" = db.tables.get "trigger" ∧
      tr.2.actions = q.actions) ∧
    (d1.1 = none → d2.1 = none → ∀ e, d3.1 = some e →
      ProcessAndStore db q = (some (.wrap "failed to insert action records" e), d3.2, ac.2) ∧
      d3.2.tables =
        (db.tables.append "overall" (ov.1.map (fun r => rowOf (.overall r)))).append "trigger"
          (tr.1.map (fun r => rowOf (.trigger r))) ∧
      d3.2.tables.get "action" = db.tables.get "action") ∧
    (d1.1 = none → d2.1 = none → d3.1 = none →
      ProcessAndStore db q = (none, d3.2, ac.2) ∧
      d3.2.tables =
        ((db.tables.append "overall" (ov.1.map (fun r => rowOf (.overall r)))).append "trigger"
          (tr.1.map (fun r => rowOf (.trigger r)))).append "action"
          (ac.1.map (fun r => rowOf (.action r)))) := by
  dsimp only
  have ho := InsertRecords_tables (T := Overall) (insertQuery (.overall sampleOverall))
    (fun _ => by rfl) db (GetSink q "health-overall" : List Overall × Queue).1
  have hov1 := GetSink_frame (T := Overall) q "health-overall" "health-triggers" (by decide)
  have hov2 := GetSink_frame (T := Overall) q "health-overall" "health-actions" (by decide)
  rcases hov : (GetSink q "health-overall" : List Overall × Queue) with ⟨ovs, q1⟩
  rw [hov] at ho hov1 hov2
  have ht := fun d => InsertRecords_tables (T := Trigger) (insertQuery (.trigger sampleTrigger))
    (fun _ => by rfl) d (GetSink q1 "health-triggers" : List Trigger × Queue).1
  have htr2 := GetSink_frame (T := Trigger) q1 "health-triggers" "health-actions" (by decide)
  rcases htr : (GetSink q1 "health-triggers" : List Trigger × Queue) with ⟨trs, q2⟩
  rw [htr] at ht htr2
  have ha := fun d => InsertRecords_tables (T := Action)
    (insertQuery (.action ⟨"", "", "", false, 0, ""⟩))
    (fun _ => by rfl) d (GetSink q2 "health-actions" : List Action × Queue).1
  rcases hac : (GetSink q2 "health-actions" : List Action × Queue) with ⟨acs, q3⟩
  rw [hac] at ha
  simp only [ProcessAndStore, hov, htr, hac]
  simp only [Queue.list] at hov1 hov2 htr2
  simp only [String.reduceEq, if_false, if_true] at hov1 hov2 htr2
  rcases hd1 : InsertRecords db ovs with ⟨e1, db1⟩
  rw [hd1] at ho
  simp only at ho
  cases e1 with
  | some err1 =>
    dsimp only
    refine ⟨?_, fun h => (by cases h), fun h => (by cases h), fun h => (by cases h)⟩
    intro e he
    cases he
    exact ⟨rfl, ho.2 (by simp), hov1, hov2⟩
  | none =>
    have ht1 := ht db1
    dsimp only
    rcases hd2 : InsertRecords db1 trs with ⟨e2, db2⟩
    rw [hd2] at ht1
    simp only at ht1
    cases e2 with
    | some err2 =>
      dsimp only
      refine ⟨fun e he => (by cases he), ?_, fun _ h => (by cases h), fun _ h => (by cases h)⟩
      intro _ e he
      cases he
      refine ⟨rfl, ?_, ?_, ?_⟩
      · rw [ht1.2 (by simp), ho.1 rfl]; rfl
      · rw [ht1.2 (by simp), ho.1 rfl]
        exact Tables.append_get_other _ _ _ _ (by decide)
      · rw [htr2, hov2]
    | none =>
      have ha1 := ha db2
      dsimp only
      rcases hd3 : InsertRecords db2 acs with ⟨e3, db3⟩
      rw [hd3] at ha1
      simp only at ha1
      cases e3 with
      | some err3 =>
        dsimp only
        refine ⟨fun e he => (by cases he), fun _ e he => (by cases he), ?_,
          fun _ _ h => (by cases h)⟩
        intro _ _ e he
        cases he
        refine ⟨rfl, ?_, ?_⟩
        · rw [ha1.2 (by simp), ht1.1 rfl, ho.1 rfl]; rfl
        · rw [ha1.2 (by simp), ht1.1 rfl, ho.1 rfl]
          rw [Tables.append_get_other _ _ _ _ (by decide),
            Tables.append_get_other _ _ _ _ (by decide)]
      | none =>
        dsimp only
        refine ⟨fun e he => (by cases he), fun _ e he => (by cases he),
          fun _ _ e he => (by cases he), ?_⟩
        intro _ _ _
        refine ⟨rfl, ?_⟩
        rw [ha1.1 rfl, ht1.1 rfl, ho.1 rfl]; rfl

/-- Witness of C5: with `failingStore` the overall batch commits and the `Begin` of the
trigger batch fails; `ProcessAndStore` returns the wrapped error, the overall row stays
and the trigger table stays empty. -/
theorem ProcessAndStore_sequential_witness :
    (ProcessAndStore failingStore twoKindQueue).1 =
      some (.wrap "failed to insert trigger records"
        (.wrap "failed to begin transaction" (.failure "BEGIN"))) ∧
    (ProcessAndStore failingStore twoKindQueue).2.1.tables =
      ⟨some [], some [], some [rowOf (.overall sampleOverall)]⟩ := by
  have h := (ProcessAndStore_sequential failingStore twoKindQueue).2.1 (by decide)
    (.wrap "failed to begin transaction" (.failure "BEGIN")) (by decide)
  refine ⟨by rw [h.1], ?_⟩
  rw [h.1]
  exact h.2.1.trans (by decide)

/-- C6, refuted as stated: in `stuckItemWorld` the first cycle succeeds and pops only
the malformed trigger item, leaving the trigger table empty; the second cycle, run on
the world the first one left with nothing pushed in between, succeeds too and inserts
the row of the item that was stuck behind the malformed one. -/
theorem RefreshSink_second_run_inserts_row :
    (RefreshSink [] stuckItemWorld).outcome = .returned none ∧
    (RefreshSink [] (RefreshSink [] stuckItemWorld).world).outcome = .returned none ∧
    (RefreshSink [] stuckItemWorld).db.map (fun d => d.Db.tables.rows "trigger") = some [] ∧
    (RefreshSink [] (RefreshSink [] stuckItemWorld).world).db.map
        (fun d => d.Db.tables.rows "trigger") =
      some [rowOf (.trigger sampleTrigger)] := by
  decide

/-- C6, amended: when every queued item deserializes and no pop fails in the transport
during the first of two successful cycles run in sequence with nothing pushed in
between, the second cycle inserts no row: each table has after the second cycle the
rows it had after the first. -/
theorem RefreshSink_twice_same_rows (f1 f2 : List Bool) (w : World)
    (hwf : w.redis.wellFormed = true) (hc : ∀ n, clean n w.redis.faults = true)
    (h1 : (RefreshSink f1 w).outcome = .returned none)
    (h2 : (RefreshSink f2 (RefreshSink f1 w).world).outcome = .returned none) :
    ∃ d1 d2, (RefreshSink f1 w).db = some d1 ∧
      (RefreshSink f2 (RefreshSink f1 w).world).db = some d2 ∧
      ∀ name, d2.Db.tables.rows name = d1.Db.tables.rows name := by
  obtain ⟨hd, d1, hd1, hs3⟩ := RefreshSink_first f1 w h1 hwf hc
  obtain ⟨d2, hd2⟩ := RefreshSink_db_of_returned_none f2 _ h2
  exact ⟨d1, d2, hd1, hd2, RefreshSink_second f2 _ d1.Db.tables hd hs3 d2 hd2⟩

/-- Witness of C6 amended: two cycles from `freshWorld`, whose two queued items are
well-formed; the second leaves the one overall row and the one trigger row. -/
theorem RefreshSink_twice_same_rows_witness :
    (RefreshSink [] freshWorld).outcome = .returned none ∧
    (RefreshSink [] (RefreshSink [] freshWorld).world).outcome = .returned none ∧
    ∃ d1 d2, (RefreshSink [] freshWorld).db = some d1 ∧
      (RefreshSink [] (RefreshSink [] freshWorld).world).db = some d2 ∧
      ∀ name, d2.Db.tables.rows name = d1.Db.tables.rows name :=
  ⟨by decide, by decide,
    RefreshSink_twice_same_rows [] [] freshWorld (by decide) (fun n => by cases n <;> rfl)
      (by decide) (by decide)⟩

/-- C7: in a cycle that finds the tables missing and in which `CreateTables` does not
succeed, `RefreshSink` ends as `CreateTables` did: it returns the error that
`CreateTables` returned (or the process has exited in `log.Fatal` when `tables.sql`
could not be opened).  The three queues hold what they held when the cycle started, the
store has the rows it had when it was opened, the driver saw only existence queries and
`CREATE TABLE` calls (no insert, no `VACUUM INTO`), the snapshot file is what
`InitDatabase` left and the remote object is untouched. -/
theorem RefreshSink_CreateTables_failure (dbFaults : List Bool) (w : World) (db : Database)
    (w1 : World) (q : Queue) (w2 : World) (o : Outcome) (db2 : Database) (w3 : World)
    (hinit : InitDatabase false dbFaults w = (.ok db, w1))
    (hq : Init w1 = (.ok q, w2))
    (hmissing : db.checkExistence.1 = false)
    (hcreate : CreateTables db.checkExistence.2 w2 = (o, db2, w3))
    (hfail : o ≠ .returned none) :
    RefreshSink dbFaults w = ⟨o, some db2, w3⟩ ∧
    w3.redis.overall = w.redis.overall ∧ w3.redis.triggers = w.redis.triggers ∧
    w3.redis.actions = w.redis.actions ∧
    (∀ name, db2.Db.tables.rows name = db.Db.tables.rows name) ∧
    db2.Db.trace.all DbOp.isSchemaOp = true ∧
    w3.fs.out = w1.fs.out ∧ w3.s3 = w.s3 := by
  have hi := InitDatabase_spec dbFaults w
  rw [hinit] at hi
  have hn := Init_spec w1
  rw [hq] at hn
  have hc := checkExistence_frame db
  have hk := CreateTables_frame db.checkExistence.2 w2
  rw [hcreate] at hk
  simp only at hi hn hk
  refine ⟨?_, ?_, ?_, ?_, ?_, ?_, ?_, ?_⟩
  · simp only [RefreshSink, hinit, hq]
    rcases hx : db.checkExistence with ⟨b, db1⟩
    rw [hx] at hmissing hcreate
    simp only at hmissing hcreate
    subst hmissing
    simp only [hcreate]
    cases o with
    | exited => rfl
    | returned e =>
      cases e with
      | none => exact absurd rfl hfail
      | some err => rfl
  · rw [hk.1, hn.2.2.1, hi.1]
  · rw [hk.1, hn.2.2.2.1, hi.1]
  · rw [hk.1, hn.2.2.2.2.1, hi.1]
  · intro name
    rw [hk.2.2.2.1 name, hc.1]
  · rw [hk.2.2.2.2, hc.2, (hi.2.2 db rfl).1]; rfl
  · rw [hk.2.2.1, hn.1]
  · rw [hk.2.1, hn.2.1, hi.2.1]

/-- Witness of C7: in `freshWorld` the first `CREATE TABLE` fails; the cycle returns that
error and the two queued items are still there. -/
theorem RefreshSink_CreateTables_failure_witness :
    (RefreshSink [false, true] freshWorld).outcome = .returned (some (.failure "EXEC")) ∧
    (RefreshSink [false, true] freshWorld).world.redis.overall = [overallItem] ∧
    (RefreshSink [false, true] freshWorld).world.redis.triggers = [goodItem] :=
  have h := RefreshSink_CreateTables_failure [false, true] freshWorld _ _ _ _
    (.returned (some (.failure "EXEC"))) _ _ rfl rfl rfl rfl (by decide)
  ⟨by rw [h.1], by rw [h.1]; exact h.2.1, by rw [h.1]; exact h.2.2.1⟩

/-- C8, refuted as stated: the first pop of `transportFaultQueue` fails with a transport
error, and `ProcessAndStore` returns no error; the item is still queued. -/
theorem ProcessAndStore_hides_transport_error :
    (LPop transportFaultQueue "health-overall").1 = .error (.failure "LPOP") ∧
    (ProcessAndStore emptyStore transportFaultQueue).1 = none ∧
    (ProcessAndStore emptyStore transportFaultQueue).2.2.overall = [overallItem] :=
  ⟨rfl, by decide, by decide⟩

/-- C8, amended: a transport error of a pop is not surfaced.  In a drain it ends the
loop as an empty queue does: when the pop after `ps.length` good pops fails, `GetSink`
returns the records accumulated so far (the values `pre` of `ps`) and every item from
the failed pop on stays queued.  `ProcessAndStore` goes on with what the drains
returned: whenever no driver call of the store fails and the three tables exist, it
drains and inserts all three kinds, each after the one before, and returns no error,
whatever the pops do. -/
theorem ProcessAndStore_ok_when_store_ok {T : Type} [SinkRecord T] (db : SqlDB) (q q0 : Queue)
    (name : String) (ps rest : List Payload) (pre : List T)
    (hc : ∀ n, clean n db.faults = true) (ht : db.tables.complete = true)
    (hlist : q0.list name = ps ++ rest)
    (hpre : ps.map SinkRecord.unmarshal = pre.map some)
    (hclean : clean ps.length q0.faults = true)
    (hfault : (nextFault (q0.faults.drop ps.length)).1 = true) :
    ((GetSink q0 name : List T × Queue).1 = pre ∧
      (GetSink q0 name : List T × Queue).2.list name = rest ∧
      (∀ other, other ≠ name →
        (GetSink q0 name : List T × Queue).2.list other = q0.list other)) ∧
    (let ov := (GetSink q "health-overall" : List Overall × Queue)
     let tr := (GetSink ov.2 "health-triggers" : List Trigger × Queue)
     let ac := (GetSink tr.2 "health-actions" : List Action × Queue)
     let d1 := InsertRecords db ov.1
     let d2 := InsertRecords d1.2 tr.1
     let d3 := InsertRecords d2.2 ac.1
     ProcessAndStore db q = (none, d3.2, ac.2) ∧
     d3.2.tables =
      ((db.tables.append "overall" (ov.1.map (fun r => rowOf (.overall r)))).append "trigger"
        (tr.1.map (fun r => rowOf (.trigger r)))).append "action"
        (ac.1.map (fun r => rowOf (.action r)))) := by
  constructor
  · have h := GetSink_drain (T := T) q0 name ps rest pre hlist hpre hclean (Or.inr (Or.inl hfault))
    exact ⟨h.2.1, by simpa [hfault] using h.2.2.1, h.2.2.2.1⟩
  · have hget : ∀ t : Tables, t.complete = true →
        (t.get "overall").isSome = true ∧ (t.get "trigger").isSome = true ∧
          (t.get "action").isSome = true := by
      intro t h
      rcases t with ⟨tr, ac, ov⟩
      simp only [Tables.complete, Bool.and_eq_true] at h
      simp [Tables.get, h.1.1, h.1.2, h.2]
    dsimp only
    rcases hov : (GetSink q "health-overall" : List Overall × Queue) with ⟨ovs, q1⟩
    dsimp only
    rcases htr : (GetSink q1 "health-triggers" : List Trigger × Queue) with ⟨trs, q2⟩
    dsimp only
    rcases hac : (GetSink q2 "health-actions" : List Action × Queue) with ⟨acs, q3⟩
    dsimp only
    have s1 := InsertRecords_succeeds (T := Overall) (insertQuery (.overall sampleOverall))
      (fun _ => by rfl) (fun _ => by rfl) db ovs hc (hget _ ht).1
    have t1 := (InsertRecords_tables (T := Overall) (insertQuery (.overall sampleOverall))
      (fun _ => by rfl) db ovs).1 s1.1
    rcases hd1 : InsertRecords db ovs with ⟨e1, db1⟩
    rw [hd1] at s1 t1
    dsimp only at s1 t1 ⊢
    have c1 : db1.tables.complete = true := by rw [t1]; exact Tables.append_complete _ _ _ ht
    have s2 := InsertRecords_succeeds (T := Trigger) (insertQuery (.trigger sampleTrigger))
      (fun _ => by rfl) (fun _ => by rfl) db1 trs s1.2 (hget _ c1).2.1
    have t2 := (InsertRecords_tables (T := Trigger) (insertQuery (.trigger sampleTrigger))
      (fun _ => by rfl) db1 trs).1 s2.1
    rcases hd2 : InsertRecords db1 trs with ⟨e2, db2⟩
    rw [hd2] at s2 t2
    dsimp only at s2 t2 ⊢
    have c2 : db2.tables.complete = true := by rw [t2]; exact Tables.append_complete _ _ _ c1
    have s3 := InsertRecords_succeeds (T := Action)
      (insertQuery (.action ⟨"", "", "", false, 0, ""⟩))
      (fun _ => by rfl) (fun _ => by rfl) db2 acs s2.2 (hget _ c2).2.2
    have t3 := (InsertRecords_tables (T := Action)
      (insertQuery (.action ⟨"", "", "", false, 0, ""⟩))
      (fun _ => by rfl) db2 acs).1 s3.1
    rcases hd3 : InsertRecords db2 acs with ⟨e3, db3⟩
    rw [hd3] at s3 t3
    dsimp only at s3 t3 ⊢
    refine ⟨?_, ?_⟩
    · simp only [ProcessAndStore, hov, htr, hac, hd1, hd2, hd3, s1.1, s2.1, s3.1]
    · rw [t3, t2, t1]; rfl

/-- Witness of C8 amended: on `faultAfterOneQueue` the second pop fails; the drain returns
the one overall record popped before it and keeps the second item queued, and
`ProcessAndStore` on `emptyStore` returns no error after inserting that record and the
queued trigger. -/
theorem ProcessAndStore_ok_when_store_ok_witness :
    (GetSink faultAfterOneQueue "health-overall" : List Overall × Queue).1 = [sampleOverall] ∧
    (GetSink faultAfterOneQueue "health-overall" : List Overall × Queue).2.list
      "health-overall" = [overallItem2] ∧
    (ProcessAndStore emptyStore faultAfterOneQueue).1 = none ∧
    (ProcessAndStore emptyStore faultAfterOneQueue).2.1.tables =
      ⟨some [rowOf (.trigger sampleTrigger)], some [], some [rowOf (.overall sampleOverall)]⟩ := by
  have h := ProcessAndStore_ok_when_store_ok (T := Overall) emptyStore faultAfterOneQueue
    faultAfterOneQueue "health-overall" [overallItem] [overallItem2] [sampleOverall]
    (fun n => by cases n <;> rfl) (by decide) (by decide) (by decide) (by decide) (by decide)
  refine ⟨h.1.1, h.1.2.1, by rw [h.2.1], ?_⟩
  rw [h.2.1]
  exact h.2.2.trans (by decide)

/-- C9, evaluated where the claim fails: in `redisDownWorld` the cycle returns the error
of the failed ping, the handler logs it, and the response is the same 200
`Refreshed database` that a successful cycle gets; this holds for every cycle that
returns an error. -/
theorem Sink_answers_success_on_error :
    (RefreshSink [] redisDownWorld).outcome =
      .returned (some (.wrap "failed to connect to Redis" (.failure "PING"))) ∧
    (Sink [] redisDownWorld).response = some ⟨200, "Refreshed database"⟩ ∧
    (Sink [] redisDownWorld).logged =
      [.wrap "failed to connect to Redis" (.failure "PING")] ∧
    (∀ (dbFaults : List Bool) (w : World) (e : Error),
      (RefreshSink dbFaults w).outcome = .returned (some e) →
      (Sink dbFaults w).response = some ⟨200, "Refreshed database"⟩ ∧
      (Sink dbFaults w).logged = [e]) := by
  refine ⟨by decide, by decide, by decide, ?_⟩
  intro f w e h
  rcases hc : RefreshSink f w with ⟨o, db, w1⟩
  rw [hc] at h
  simp only at h
  subst h
  simp [Sink, hc]

/-- C10, evaluated where the claim fails: with an earlier snapshot at `/tmp/out.sqlite`,
`saveDBToFile` removes nothing, returns the error of `VACUUM INTO` and leaves the
earlier snapshot in place; in every state `os.IsExist` is false on the result of
`os.Stat`, so the branch that removes files never runs. -/
theorem saveDBToFile_keeps_stale_snapshot :
    (saveDBToFile oneRowStore "/tmp/out.sqlite" staleSnapshotWorld).1 =
      some (.failure "output file already exists") ∧
    (saveDBToFile oneRowStore "/tmp/out.sqlite" staleSnapshotWorld).2.2.fs =
      staleSnapshotWorld.fs ∧
    (∀ (filePath : String) (w : World), IsExist (osStat filePath w).1 = false) ∧
    (∀ (db : SqlDB) (filePath : String) (w : World),
      saveDBToFile db filePath w = vacuumInto db filePath (osStat filePath w).2) := by
  exact ⟨by decide, by decide, IsExist_osStat, saveDBToFile_eq⟩

end HealthTracker
